import Mathlib

/-!
# Verification of the liquidation-PDF extraction engine

Shallow embedding of the extraction logic of `src/extractors/pdf_extractor.py`
and of the document model / cross-validator of `src/models/liquidation.py`.

Modelling conventions:
* Python strings are modelled as `List Char` (named `Str` below); a table cell
  is `Option Str` (`none` models Python `None`).
* Python `Decimal` amounts are modelled as `ℚ`.  The `Decimal` string
  constructor is modelled by `pyDecimal`, covering sign / digits / decimal
  point / exponent literals (the special literals `NaN`/`Infinity` and
  PEP-515 underscores are outside the model).
* Python truthiness of a cell (`if cell:`) is `cellTruthy`; `str(cell)` on a
  `None` cell yields the four characters `"None"`, which the source relies on
  in a few emptiness tests, so `pyStr none = "None"`.
* `.upper()` is modelled by the ASCII `Char.toUpper`; every keyword the source
  compares against is plain ASCII, so this agrees with Python on all the
  comparisons performed.
-/

abbrev Str := List Char

abbrev Cell := Option Str

abbrev Row := List Cell

/-- Python whitespace for `str.strip` / `\s` (ASCII part, which is all that the
source's data can contain in the separator positions that matter). -/
def isPyWS (c : Char) : Bool :=
  c = ' ' || c = '\t' || c = '\n' || c = '\r' || c = '\x0b' || c = '\x0c'

/-- `str.lstrip()`. -/
def ltrim (s : Str) : Str := s.dropWhile isPyWS

/-- `str.rstrip()`. -/
def rtrim (s : Str) : Str := (ltrim s.reverse).reverse

/-- `str.strip()`. -/
def trim (s : Str) : Str := rtrim (ltrim s)

/-- `str.upper()` (ASCII). -/
def upperS (s : Str) : Str := s.map Char.toUpper

/-- Python `needle in hay` substring test. -/
def containsSub (needle : Str) : Str → Bool
  | [] => decide (needle = [])
  | c :: rest => needle.isPrefixOf (c :: rest) || containsSub needle rest

/-- Python `s.split('\n')`. -/
def splitNl : Str → List Str
  | [] => [[]]
  | c :: cs =>
    if c = '\n' then [] :: splitNl cs
    else
      match splitNl cs with
      | h :: t => (c :: h) :: t
      | [] => [[c]]

/-- Python `'\n'.join`. -/
def joinNl (ls : List Str) : Str := List.intercalate ['\n'] ls

/-- Python `' '.join`. -/
def joinSpace (ls : List Str) : Str := List.intercalate [' '] ls

/-- Numeric value of a digit character. -/
def dval (c : Char) : Nat := c.toNat - '0'.toNat

/-- Value of a digit string, most significant digit first. -/
def readNatDigits (ds : Str) : Nat := ds.foldl (fun a c => 10 * a + dval c) 0

/-- Python `str(cell)`: `None` prints as `"None"`. -/
def pyStr : Cell → Str
  | none => ['N', 'o', 'n', 'e']
  | some s => s

/-- Python truthiness of a cell: `None` and `''` are falsy. -/
def cellTruthy : Cell → Bool
  | none => false
  | some [] => false
  | some (_ :: _) => true

/-- The idiom `str(cell) if cell else ""`. -/
def pyStrIfTruthy (c : Cell) : Str := if cellTruthy c then pyStr c else []

/-- `str.rfind(c)`: highest index of `c`, or `-1` when absent (auxiliary). -/
def rfindAux (c : Char) : Str → Nat → Int → Int
  | [], _, best => best
  | x :: xs, i, best => rfindAux c xs (i + 1) (if x = c then (i : Int) else best)

/-- Python `s.rfind(c)`. -/
def rfindPy (s : Str) (c : Char) : Int := rfindAux c s 0 (-1)

/-! ## The `Decimal` string constructor (finite numeric literals)

A successfully parsed literal is kept in syntactic form (`DecLit`, rationally
interpreted by `DecLit.toRat`), so that the whole string-processing pipeline
is `ℚ`-free and kernel-computable; the interpretation into `ℚ` happens last. -/

/-- A finite `Decimal` literal: sign, integer part, fractional part with its
digit count, and exponent.  Its value is
`(-1)^neg * (ip + fp / 10^fplen) * 10^exp`. -/
structure DecLit where
  neg : Bool
  ip : Nat
  fp : Nat
  fplen : Nat
  exp : Int
  deriving DecidableEq, Repr

/-- Rational value of a parsed `Decimal` literal. -/
def DecLit.toRat (d : DecLit) : ℚ :=
  (if d.neg then -1 else 1) * ((d.ip : ℚ) + (d.fp : ℚ) / (10 : ℚ) ^ d.fplen) * (10 : ℚ) ^ d.exp

/-- Optional sign prefix of a numeric literal (`true` = negative). -/
def splitSign (s : Str) : Bool × Str :=
  match s with
  | [] => (false, [])
  | c :: r => if c = '-' then (true, r) else if c = '+' then (false, r) else (false, s)

/-- Exponent part `[+-]?digits` already stripped of the `e`/`E`. -/
def readExp (r : Str) : Option Int :=
  let (es, r1) : Int × Str :=
    match r with
    | [] => (1, [])
    | c :: t => if c = '-' then (-1, t) else if c = '+' then (1, t) else (1, r)
  let ed := r1.takeWhile Char.isDigit
  let r2 := r1.dropWhile Char.isDigit
  if ed = [] || r2 ≠ [] then none else some (es * (readNatDigits ed : Int))

/-- Model of `decimal.Decimal(str)` on finite numeric literals: optional sign,
digits with an optional decimal point (at least one digit overall), and an
optional exponent.  Anything else is a constructor failure (`none`); the
special literals `NaN`/`Infinity` and PEP-515 underscores are outside the
model. -/
def pyDecimalLit (s : Str) : Option DecLit :=
  let (sgn, s1) := splitSign s
  let ip := s1.takeWhile Char.isDigit
  let r1 := s1.dropWhile Char.isDigit
  match r1 with
  | [] => if ip = [] then none else some ⟨sgn, readNatDigits ip, 0, 0, 0⟩
  | '.' :: r2 =>
    let fp := r2.takeWhile Char.isDigit
    let r3 := r2.dropWhile Char.isDigit
    if ip = [] && fp = [] then none
    else
      match r3 with
      | [] => some ⟨sgn, readNatDigits ip, readNatDigits fp, fp.length, 0⟩
      | 'e' :: r4 => (readExp r4).map (fun e => ⟨sgn, readNatDigits ip, readNatDigits fp, fp.length, e⟩)
      | 'E' :: r4 => (readExp r4).map (fun e => ⟨sgn, readNatDigits ip, readNatDigits fp, fp.length, e⟩)
      | _ => none
  | 'e' :: r4 =>
    if ip = [] then none
    else (readExp r4).map (fun e => ⟨sgn, readNatDigits ip, 0, 0, e⟩)
  | 'E' :: r4 =>
    if ip = [] then none
    else (readExp r4).map (fun e => ⟨sgn, readNatDigits ip, 0, 0, e⟩)
  | _ => none

/-! ## `_parse_amount` -/

/-- European-format normalisation: `value_str.replace('.', '').replace(',', '.')`. -/
def euroNorm (s : Str) : Str :=
  (s.filter (fun c => c ≠ '.')).map (fun c => if c = ',' then '.' else c)

/-- Separator normalisation step of `_parse_amount` (lines 1112-1128 of
`pdf_extractor.py`): decide between European and American formats. -/
def sepNormalize (s : Str) : Str :=
  if (decide (',' ∈ s)) && (decide ('.' ∈ s)) then
    if rfindPy s ',' > rfindPy s '.' then euroNorm s
    else s.filter (fun c => c ≠ ',')
  else if decide (',' ∈ s) then euroNorm s
  else s

/-- `ℚ`-free core of `_parse_amount`: `none` covers both the early zero
returns (for `None`/empty/whitespace/`'-'` inputs) and a failing `Decimal`
parse — all of which `_parse_amount` coerces to zero. -/
def parse_amount_core (value : Cell) : Option DecLit :=
  match value with
  | none => none
  | some v =>
    if v = [] then none
    else
      let s := trim v
      if s = [] || s = ['-'] then none
      else pyDecimalLit (sepNormalize (s.filter (fun c => c ≠ ' ')))

/-- `LiquidationPDFExtractor._parse_amount` (lines 1089-1133): `None` and the
empty string map to `0`; after stripping, `''` and `'-'` map to `0`; interior
spaces are removed; separators are normalised; a failing `Decimal` parse is
coerced to `0`. -/
def parse_amount (value : Cell) : ℚ :=
  ((parse_amount_core value).map DecLit.toRat).getD 0

example : parse_amount_core (some "1.234,56".toList) = some ⟨false, 1234, 56, 2, 0⟩ := by decide
example : parse_amount_core (some "1,234.56".toList) = some ⟨false, 1234, 56, 2, 0⟩ := by decide
example : parse_amount_core (some "0,00".toList) = some ⟨false, 0, 0, 2, 0⟩ := by decide
example : parse_amount_core (some "abc".toList) = none := by decide
example : parse_amount (some "1.234,56".toList) = 1234 + 56 / 100 := by
  have h : parse_amount_core (some "1.234,56".toList) = some ⟨false, 1234, 56, 2, 0⟩ := by decide
  rw [parse_amount, h]
  norm_num [DecLit.toRat]

/-! ## Decimal formatting (European and American styles), for the round-trip -/

/-- Digit character for a value `d < 10`. -/
def digitChar48 (d : Nat) : Char := Char.ofNat (d + 48)

/-- MSB-first decimal digit characters, fuel-driven (`fuel` bounds the digit
count; `natDigits` instantiates it large enough). -/
def natDigitsF : Nat → Nat → Str
  | 0, _ => []
  | fuel + 1, n => if n = 0 then [] else natDigitsF fuel (n / 10) ++ [digitChar48 (n % 10)]

/-- Decimal digit characters of `n`, MSB first (Python `str(n)`). -/
def natDigits (n : Nat) : Str := if n = 0 then ['0'] else natDigitsF (n + 1) n

/-- Two-digit zero-padded fractional part (Python `f"{b:02d}"` for `b < 100`). -/
def pad2 (b : Nat) : Str := [digitChar48 (b / 10), digitChar48 (b % 10)]

/-- Thousands grouping on a little-endian digit list: insert `sep` after every
third consumed character when more characters follow. -/
def g3aux (sep : Char) : Nat → Str → Str
  | _, [] => []
  | 0, c :: t => sep :: c :: g3aux sep 2 t
  | k + 1, c :: t => c :: g3aux sep k t

/-- Insert `sep` as a thousands separator every three digits from the right
(Python `f"{n:,}"` uses `sep = ','`). -/
def group3 (sep : Char) (ds : Str) : Str := (g3aux sep 3 ds.reverse).reverse

/-- A non-negative amount with two decimals in European style: dot-grouped
thousands, comma decimal point (e.g. `1.234,56`). -/
def euroFormat (n b : Nat) : Str := group3 '.' (natDigits n) ++ ',' :: pad2 b

/-- The same amount in American style: comma-grouped thousands, dot decimal
point (e.g. `1,234.56`). -/
def amerFormat (n b : Nat) : Str := group3 ',' (natDigits n) ++ '.' :: pad2 b

example : euroFormat 1234 56 = "1.234,56".toList := by decide
example : amerFormat 1234 56 = "1,234.56".toList := by decide
example : euroFormat 0 5 = "0,05".toList := by decide
example : amerFormat 1234567 0 = "1,234,567.00".toList := by decide

/-! ## Regex scanners used by the extractor -/

/-- Four consecutive digits at the head of the string (the leftmost-position
step of `re.search` with pattern `(\d{4})`). -/
def fourDigitsAt : Str → Option Nat
  | a :: b :: c :: d :: _ =>
    if a.isDigit && b.isDigit && c.isDigit && d.isDigit then
      some (((dval a * 10 + dval b) * 10 + dval c) * 10 + dval d)
    else none
  | _ => none

/-- `re.search` with pattern `(\d{4})`: value of the leftmost run of four
consecutive digits. -/
def search4 : Str → Option Nat
  | [] => none
  | c :: cs =>
    match fourDigitsAt (c :: cs) with
    | some y => some y
    | none => search4 cs

/-- Pattern `026/(\d{4})/` anchored at the head of the string. -/
def m026At : Str → Option Nat
  | '0' :: '2' :: '6' :: '/' :: a :: b :: c :: d :: '/' :: _ =>
    if a.isDigit && b.isDigit && c.isDigit && d.isDigit then
      some (((dval a * 10 + dval b) * 10 + dval c) * 10 + dval d)
    else none
  | _ => none

/-- `re.search` with pattern `026/(\d{4})/`: year of the leftmost match. -/
def search026 : Str → Option Nat
  | [] => none
  | c :: cs =>
    match m026At (c :: cs) with
    | some y => some y
    | none => search026 cs

/-- Pattern `\d{4}/[A-Z]/\d+` anchored at the head: on success returns the
matched text together with the remainder after the (greedy) trailing digits. -/
def claveAt : Str → Option (Str × Str)
  | a :: b :: c :: d :: '/' :: u :: '/' :: rest =>
    if a.isDigit && b.isDigit && c.isDigit && d.isDigit && ('A' ≤ u && u ≤ 'Z') then
      let ds := rest.takeWhile Char.isDigit
      if ds = [] then none
      else some (a :: b :: c :: d :: '/' :: u :: '/' :: ds, rest.dropWhile Char.isDigit)
    else none
  | _ => none

/-- Fuel-bounded body of `re.findall` counting for `\d{4}/[A-Z]/\d+`
(non-overlapping leftmost matches); the fuel is the string length, which is
sufficient since every step consumes at least one character. -/
def countClaveAux : Nat → Str → Nat
  | 0, _ => 0
  | _ + 1, [] => 0
  | fuel + 1, c :: cs =>
    match claveAt (c :: cs) with
    | some (_, rest) => 1 + countClaveAux fuel rest
    | none => countClaveAux fuel cs

/-- Number of `re.findall(r'\d{4}/[A-Z]/\d+', s)` matches. -/
def countClave (s : Str) : Nat := countClaveAux s.length s

/-- `re.search` with pattern `(\d{4}/[A-Z]/\d+)`: leftmost matched text. -/
def searchClave : Str → Option Str
  | [] => none
  | c :: cs =>
    match claveAt (c :: cs) with
    | some (m, _) => some m
    | none => searchClave cs

/-- Fuel-bounded `str.replace(pat, repl)` (leftmost, non-overlapping). -/
def replaceAllAux (pat repl : Str) : Nat → Str → Str
  | 0, s => s
  | _ + 1, [] => []
  | fuel + 1, c :: cs =>
    if pat ≠ [] && pat.isPrefixOf (c :: cs) then
      repl ++ replaceAllAux pat repl fuel ((c :: cs).drop pat.length)
    else c :: replaceAllAux pat repl fuel cs

/-- Python `s.replace(pat, repl)` for non-empty `pat`. -/
def replaceAll (s pat repl : Str) : Str := replaceAllAux pat repl s.length s

/-- Label-and-amount pattern (such as `VOLUNTARIA\s+([\d.,]+)`) anchored at
the head of the string: the label, one or more whitespace characters, then a
maximal non-empty run of digits, dots and commas. -/
def labelAmountAt (label s : Str) : Option Str :=
  if label.isPrefixOf s then
    let r1 := s.drop label.length
    if r1.takeWhile isPyWS = [] then none
    else
      let num := (r1.dropWhile isPyWS).takeWhile (fun c => c.isDigit || c = '.' || c = ',')
      if num = [] then none else some num
  else none

/-- `re.search(r'LABEL\s+([\d.,]+)', s)`: captured amount of the leftmost
position where the whole pattern matches. -/
def searchLabelAmount (label : Str) : Str → Option Str
  | [] => none
  | c :: cs =>
    match labelAmountAt label (c :: cs) with
    | some n => some n
    | none => searchLabelAmount label cs

/-! ## Data model (`src/models/liquidation.py`) -/

/-- `TributeRecord`: one accounting line. -/
structure TributeRecord where
  concepto : Str
  clave_contabilidad : Str
  clave_recaudacion : Str
  voluntaria : ℚ
  ejecutiva : ℚ
  recargo : ℚ
  diputacion_voluntaria : ℚ
  diputacion_ejecutiva : ℚ
  diputacion_recargo : ℚ
  liquido : ℚ
  ejercicio : Nat
  deriving DecidableEq

/-- `ExerciseSummary`: declared totals for one fiscal year. -/
structure ExerciseSummary where
  ejercicio : Nat
  voluntaria : ℚ
  ejecutiva : ℚ
  recargo : ℚ
  diputacion_voluntaria : ℚ
  diputacion_ejecutiva : ℚ
  diputacion_recargo : ℚ
  liquido : ℚ
  deriving DecidableEq

/-! ## Fiscal-year inference (`_parse_tribute_row`, lines 587-617) -/

/-- Python truthiness of the `extracted_ejercicio` variable (`None` and `0`
are falsy). -/
def optTruthy : Option Nat → Bool
  | none => false
  | some n => n != 0

/-- The `extracted_ejercicio` computation: first the collection key (the
`026/YYYY/` pattern, else the first four-digit run when in 2000-2030), then —
only when the result so far is falsy — the accounting key (first four-digit
run when in 2000-2030). -/
def extractedEjercicio (rec cont : Str) : Option Nat :=
  let e1 : Option Nat :=
    if rec ≠ [] then
      match search026 rec with
      | some y => some y
      | none =>
        match search4 rec with
        | some y => if 2000 ≤ y && y ≤ 2030 then some y else none
        | none => none
    else none
  if !optTruthy e1 && cont ≠ [] then
    match search4 cont with
    | some y => if 2000 ≤ y && y ≤ 2030 then some y else e1
    | none => e1
  else e1

/-- Final fiscal-year resolution: the extracted year when truthy, else the
caller hint when truthy, else the hardcoded default 2025. -/
def inferEjercicio (rec cont : Str) (hint : Option Nat) : Nat :=
  let fallback : Nat :=
    match hint with
    | some h => if h ≠ 0 then h else 2025
    | none => 2025
  match extractedEjercicio rec cont with
  | some y => if y ≠ 0 then y else fallback
  | none => fallback

/-! ## Row parsing (`_parse_tribute_row` / `_parse_summary_row`) -/

/-- Concept-cell cleaning in `_parse_tribute_row`: strip, then collapse every
whitespace run to one space (fuel-bounded body of `re.sub(r'\s+', ' ', s)`;
the fuel, the string length, is always sufficient). -/
def collapseAux : Nat → Str → Str
  | 0, s => s
  | _ + 1, [] => []
  | fuel + 1, c :: cs =>
    if isPyWS c then ' ' :: collapseAux fuel (cs.dropWhile isPyWS)
    else c :: collapseAux fuel cs

/-- `re.sub(r'\s+', ' ', s)`. -/
def collapseWS (s : Str) : Str := collapseAux s.length s

/-- Cleaned concept text of a concept cell. -/
def cleanConcept (c : Cell) : Str := collapseWS (trim (pyStrIfTruthy c))

/-- Concept rejection test of `_parse_tribute_row`: empty, or literally
`CONCEPTO` or `TOTAL` after upper-casing. -/
def conceptRejected (s : Str) : Bool :=
  s = [] || upperS s = "CONCEPTO".toList || upperS s = "TOTAL".toList

/-- Unconditional record builder of `_parse_tribute_row` (the part after the
guards): fixed column positions 0-9, year inference from the two key cells. -/
def mkTributeRecord (row : Row) (hint : Option Nat) : TributeRecord :=
  let cc := trim (pyStrIfTruthy (row.getD 1 none))
  let cr := trim (pyStrIfTruthy (row.getD 2 none))
  { concepto := cleanConcept (row.getD 0 none)
    clave_contabilidad := cc
    clave_recaudacion := cr
    voluntaria := parse_amount (row.getD 3 none)
    ejecutiva := parse_amount (row.getD 4 none)
    recargo := parse_amount (row.getD 5 none)
    diputacion_voluntaria := parse_amount (row.getD 6 none)
    diputacion_ejecutiva := parse_amount (row.getD 7 none)
    diputacion_recargo := parse_amount (row.getD 8 none)
    liquido := parse_amount (row.getD 9 none)
    ejercicio := inferEjercicio cr cc hint }

/-- `LiquidationPDFExtractor._parse_tribute_row` (lines 557-631): `None` for
rows shorter than 10 cells or with a rejected concept, otherwise the built
record. -/
def parseTributeRow (row : Row) (hint : Option Nat) : Option TributeRecord :=
  if row.length < 10 then none
  else if conceptRejected (cleanConcept (row.getD 0 none)) then none
  else some (mkTributeRecord row hint)

/-- `LiquidationPDFExtractor._parse_summary_row` (lines 633-653): amounts at
columns 3-9, zero when the column is missing; the year is supplied by the
caller. -/
def parseSummaryRow (row : Row) (y : Nat) : ExerciseSummary :=
  { ejercicio := y
    voluntaria := if row.length > 3 then parse_amount (row.getD 3 none) else 0
    ejecutiva := if row.length > 4 then parse_amount (row.getD 4 none) else 0
    recargo := if row.length > 5 then parse_amount (row.getD 5 none) else 0
    diputacion_voluntaria := if row.length > 6 then parse_amount (row.getD 6 none) else 0
    diputacion_ejecutiva := if row.length > 7 then parse_amount (row.getD 7 none) else 0
    diputacion_recargo := if row.length > 8 then parse_amount (row.getD 8 none) else 0
    liquido := if row.length > 9 then parse_amount (row.getD 9 none) else 0 }

/-! ## Row classification (loop body of `_extract_tribute_records`) -/

/-- Header test (lines 306 and 331): `CONCEPTO` or `CLAVE` occurs in the
upper-cased first cell. -/
def headerRow (row : Row) : Bool :=
  containsSub "CONCEPTO".toList (upperS (pyStr (row.getD 0 none))) ||
  containsSub "CLAVE".toList (upperS (pyStr (row.getD 0 none)))

/-- `LiquidationPDFExtractor._is_partial_row` (lines 205-233): at least 8
cells, non-empty first cell free of header/total markers, and the numeric
columns 3-9 as well as the key columns 1-2 all strip to the empty string
(note that a `None` cell strips to `"None"` and therefore does not count as
empty, exactly as in the source). -/
def isPartialRow (row : Row) : Bool :=
  if row.length < 8 then false
  else
    let first := trim (pyStrIfTruthy (row.getD 0 none))
    if first = [] then false
    else if containsSub "CONCEPTO".toList (upperS first) ||
            containsSub "CLAVE".toList (upperS first) ||
            containsSub "TOTAL EJERCICIO".toList (upperS first) then false
    else
      let numeric := if row.length > 9 then (row.drop 3).take 7 else row.drop 3
      let claves := if row.length > 2 then (row.drop 1).take 2 else []
      numeric.all (fun c => trim (pyStr c) = []) && claves.all (fun c => trim (pyStr c) = [])

/-- Accounting-key cell as read at line 386: `str(row[1]) if len(row) > 1 and
row[1] else ""`. -/
def claveContCell (row : Row) : Str :=
  if row.length > 1 && cellTruthy (row.getD 1 none) then pyStr (row.getD 1 none) else []

/-- Multi-record-merged test (lines 386-392): embedded line break in the
accounting-key cell and more than one `\d{4}/[A-Z]/\d+` pattern inside it. -/
def isMultiRecordRow (row : Row) : Bool :=
  decide ('\n' ∈ claveContCell row) && decide (countClave (claveContCell row) > 1)

/-- Concept+total-merged test (lines 445-451): line break in the concept cell,
`TOTAL` and `EJERCICIO` in its upper-casing, and more than two lines. -/
def isConceptTotalRow (row : Row) : Bool :=
  let t := pyStrIfTruthy (row.getD 0 none)
  decide ('\n' ∈ t) && containsSub "TOTAL".toList (upperS t) &&
    containsSub "EJERCICIO".toList (upperS t) && decide ((splitNl t).length > 2)

/-- Plain total-row test (line 520): `TOTAL` and `EJERCICIO` in the
upper-cased first cell. -/
def isTotalRow (row : Row) : Bool :=
  containsSub "TOTAL".toList (upperS (pyStr (row.getD 0 none))) &&
  containsSub "EJERCICIO".toList (upperS (pyStr (row.getD 0 none)))

/-- `LiquidationPDFExtractor._merge_partial_row` (lines 235-274): concepts are
concatenated with a space (first argument first); for every later column the
continuation value wins when non-empty, else the first argument's value. -/
def mergePartialRow (p c : Row) : Row :=
  let pc := trim (pyStrIfTruthy (p.getD 0 none))
  let cc := trim (pyStrIfTruthy (c.getD 0 none))
  let head : Str :=
    if pc ≠ [] && cc ≠ [] then pc ++ ' ' :: cc
    else if pc ≠ [] then pc else cc
  let maxLen := max p.length c.length
  some head :: (List.range (maxLen - 1)).map (fun j =>
    let i := j + 1
    let pv := if i < p.length && cellTruthy (p.getD i none) then trim (pyStr (p.getD i none)) else []
    let cv := if i < c.length && cellTruthy (c.getD i none) then trim (pyStr (c.getD i none)) else []
    some (if cv ≠ [] then cv else pv))

/-! ## The row-reconstruction engine (`_extract_tribute_records`, lines 276-555) -/

abbrev Table := List Row

abbrev Page := List Table

/-- Transient reconstruction state carried across rows, tables and pages. -/
structure PState where
  pending : Option Row
  lastRow : Option Row
  replace : Bool
  deriving DecidableEq

/-- State at the start of a document extraction (lines 72-74). -/
def initPState : PState := ⟨none, none, false⟩

/-- Per-page accumulation: the page-local record and summary lists plus the
page-local `current_exercise`. -/
structure PageOut where
  records : List TributeRecord
  summaries : List ExerciseSummary
  curEx : Option Nat
  deriving DecidableEq

/-- Fresh per-page accumulator. -/
def emptyPageOut : PageOut := ⟨[], [], none⟩

/-- Handler for rows classified as partial (lines 335-381): backward merge
with the last processed row when one exists — popping the page-local record,
or setting the cross-page replacement flag when the page-local list is empty —
else stash the row for a forward merge. -/
def handlePartialRow (st : PState) (acc : PageOut) (row : Row) : PState × PageOut :=
  match st.lastRow with
  | some lr =>
    let merged := mergePartialRow lr row
    let popped := if acc.records = [] then acc.records else acc.records.dropLast
    let repl := if acc.records = [] then true else st.replace
    match parseTributeRow merged acc.curEx with
    | some rec =>
      ({ st with lastRow := some merged, replace := repl }, { acc with records := popped ++ [rec] })
    | none => ({ st with replace := repl }, { acc with records := popped })
  | none => ({ st with pending := some row }, acc)

/-- Per-cell line splitting of the multi-record handler (lines 401-419): a
cell with line breaks is split per line, except the concept cell (index 0),
whose lines are joined into one shared string replicated for every record;
a cell without line breaks is replicated for every record. -/
def synthCellLines (num : Nat) (i : Nat) (cell : Cell) : List Str :=
  let s := pyStrIfTruthy cell
  if decide ('\n' ∈ s) then
    if i = 0 then List.replicate num (trim (joinSpace (splitNl s)))
    else splitNl s
  else List.replicate num s

/-- The shared concept string of a multi-record-merged row: all concept lines
joined with spaces (or the unsplit cell when it has no line break). -/
def multiSharedConcept (row : Row) : Str :=
  let s := pyStrIfTruthy (row.getD 0 none)
  if decide ('\n' ∈ s) then trim (joinSpace (splitNl s)) else s

/-- The `k`-th synthesized row of a multi-record-merged row (lines 422-429):
entry `record_idx < len(cell_values)` of each split cell, else the empty
string. -/
def synthRow (row : Row) (k : Nat) : Row :=
  row.enum.map (fun ic =>
    some ((synthCellLines (splitNl (claveContCell row)).length ic.1 ic.2).getD k []))

/-- One parse-and-append step of the multi-record handler (lines 431-439). -/
def multiStep (sa : PState × PageOut) (r : Row) : PState × PageOut :=
  match parseTributeRow r sa.2.curEx with
  | some rec => ({ sa.1 with lastRow := some r }, { sa.2 with records := sa.2.records ++ [rec] })
  | none => sa

/-- Handler for multi-record-merged rows (lines 394-441): one synthesized row
per line of the accounting-key cell; cells with line breaks are split
per-line (the concept cell instead joins all its lines, shared by every
synthesized record), cells without line breaks are replicated. -/
def handleMulti (st : PState) (acc : PageOut) (row : Row) : PState × PageOut :=
  let num := (splitNl (claveContCell row)).length
  ((List.range num).map (fun k => synthRow row k)).foldl multiStep (st, acc)

/-- Splitting of a concept+total-merged row (lines 453-496) into the record
row (cells) and the total row (strings): the concept lines are divided on
`TOTAL EJERCICIO`; an empty accounting-key cell is recovered from the first
concept line; every other column with a line break sends its first line to
the record and its second to the total, and whole columns without breaks go
to the record. -/
def ctSplit (row : Row) : Row × List Str :=
  let lines0 := splitNl (pyStrIfTruthy (row.getD 0 none))
  let first := lines0.headD []
  let claveExt : Option Str :=
    if !cellTruthy (row.getD 1 none) then searchClave first else none
  let lines :=
    match claveExt with
    | some k => (trim (replaceAll first k [])) :: lines0.tail
    | none => lines0
  let recLines := lines.filter (fun l => !containsSub "TOTAL EJERCICIO".toList (upperS l))
  let totLines := lines.filter (fun l => containsSub "TOTAL EJERCICIO".toList (upperS l))
  let cols := (row.drop 1).enum.map (fun jc =>
    if jc.1 + 1 = 1 && claveExt.isSome then (claveExt.getD [], ([] : Str))
    else if cellTruthy jc.2 && decide ('\n' ∈ pyStr jc.2) then
      let ls := splitNl (pyStr jc.2)
      (ls.getD 0 [], ls.getD 1 [])
    else (pyStrIfTruthy jc.2, []))
  (some (joinNl recLines) :: cols.map (fun p => some p.1),
   (totLines.headD []) :: cols.map (fun p => p.2))

/-- Handler for concept+total-merged rows (lines 453-517): emit the record,
then emit the summary with the four-digit year searched in the total row's
third cell (first cell when fewer than three columns); no summary without
such a year. -/
def handleConceptTotal (st : PState) (acc : PageOut) (row : Row) : PState × PageOut :=
  let rt := ctSplit row
  let sa1 : PState × PageOut :=
    match parseTributeRow rt.1 acc.curEx with
    | some rec => ({ st with lastRow := some rt.1 }, { acc with records := acc.records ++ [rec] })
    | none => (st, acc)
  if rt.2.any (fun s => s ≠ []) then
    match search4 (if rt.2.length > 2 then rt.2.getD 2 [] else rt.2.getD 0 []) with
    | some y =>
      let sums := sa1.2.summaries ++ [parseSummaryRow (rt.2.map some) y]
      (sa1.1, { sa1.2 with summaries := sums, curEx := some y })
    | none => sa1
  else sa1

/-- First candidate string with a four-digit run (lines 529-533). -/
def firstYear : List Str → Option Nat
  | [] => none
  | s :: rest =>
    match search4 s with
    | some y => some y
    | none => firstYear rest

/-- Handler for plain `TOTAL EJERCICIO` rows (lines 520-543): the year is
searched in the third cell, then the second, then the first. -/
def handleTotalRow (st : PState) (acc : PageOut) (row : Row) : PState × PageOut :=
  let cands :=
    (if row.length > 2 && cellTruthy (row.getD 2 none) then [pyStr (row.getD 2 none)] else []) ++
    (if row.length > 1 && cellTruthy (row.getD 1 none) then [pyStr (row.getD 1 none)] else []) ++
    [pyStr (row.getD 0 none)]
  match firstYear cands with
  | some y =>
    (st, { acc with summaries := acc.summaries ++ [parseSummaryRow row y], curEx := some y })
  | none => (st, acc)

/-- Row dispatch after the pending-partial handling (lines 330-553). -/
def mainDispatch (st : PState) (acc : PageOut) (row : Row) : PState × PageOut :=
  if headerRow row then (st, acc)
  else if isPartialRow row then handlePartialRow st acc row
  else if isMultiRecordRow row then handleMulti st acc row
  else if isConceptTotalRow row then handleConceptTotal st acc row
  else if isTotalRow row then handleTotalRow st acc row
  else
    match parseTributeRow row acc.curEx with
    | some rec => ({ st with lastRow := some row }, { acc with records := acc.records ++ [rec] })
    | none => (st, acc)

/-- Continuation test for a pending partial row (lines 310-312): some numeric
column strips to a non-empty string. -/
def hasDataCells (row : Row) : Bool :=
  let numeric := if row.length ≥ 10 then (row.drop 3).take 7 else row.drop 3
  numeric.any (fun c => trim (pyStr c) ≠ [])

/-- One iteration of the row loop (lines 297-553): skip short rows; while a
partial row is pending, skip headers, forward-merge the first row carrying
data, and skip data-less rows; then dispatch. -/
def rowStep (sa : PState × PageOut) (row : Row) : PState × PageOut :=
  if row.length < 8 then sa
  else
    match sa.1.pending with
    | some pend =>
      if headerRow row then sa
      else if hasDataCells row then
        mainDispatch { sa.1 with pending := none } sa.2 (mergePartialRow pend row)
      else sa
    | none => mainDispatch sa.1 sa.2 row

/-- `_extract_tribute_records` for one page: fold over all tables and rows,
with a fresh page-local accumulator. -/
def extractPage (st : PState) (tables : Page) : PState × PageOut :=
  tables.foldl (fun sa table =>
    if table.length < 1 then sa
    else table.foldl rowStep sa) (st, emptyPageOut)

/-- Driver accumulation of `extract` (lines 80-102). -/
structure DriverAcc where
  records : List TributeRecord
  summaries : List ExerciseSummary
  st : PState

/-- One page of the driver loop (lines 86-102): a page without tables raises
inside the per-page `try` before any state change and is skipped; otherwise
the page is processed and, when the cross-page replacement flag is set and
the global list is non-empty, the last globally-appended record is removed
and the flag cleared. -/
def pageStep (g : DriverAcc) (page : Page) : DriverAcc :=
  if page = [] then g
  else
    let so := extractPage g.st page
    let popFlag := so.1.replace && decide (g.records ≠ [])
    { records := (if popFlag then g.records.dropLast else g.records) ++ so.2.records
      summaries := g.summaries ++ so.2.summaries
      st := if popFlag then { so.1 with replace := false } else so.1 }

/-- The tribute-record part of `extract` (lines 68-102): all pages except the
last one are processed (all pages for a single-page document), threading the
reconstruction state and the global record/summary lists. -/
def extractAllPages (pages : List Page) : List TributeRecord × List ExerciseSummary :=
  let toProcess := if pages.length > 1 then pages.take (pages.length - 1) else pages
  let fin := toProcess.foldl pageStep { records := [], summaries := [], st := initPState }
  (fin.records, fin.summaries)

/-! ## Document model and cross-validator (`src/models/liquidation.py`) -/

/-- `DeductionDetail` (lines 89-129): sixteen named deduction amounts. -/
structure DeductionDetail where
  tasa_voluntaria : ℚ := 0
  tasa_ejecutiva : ℚ := 0
  tasa_ejecutiva_sin_recargo : ℚ := 0
  tasa_baja_organo_gestor_deleg : ℚ := 0
  tasa_gestion_tributaria : ℚ := 0
  tasa_gestion_censal : ℚ := 0
  tasa_gestion_catastral : ℚ := 0
  tasa_sancion_tributaria : ℚ := 0
  tasa_sancion_recaudacion : ℚ := 0
  tasa_sancion_inspeccion : ℚ := 0
  tasa_multas_trafico : ℚ := 0
  gastos_repercutidos : ℚ := 0
  anticipos : ℚ := 0
  intereses_por_anticipo : ℚ := 0
  expedientes_compensacion : ℚ := 0
  expedientes_ingresos_indebidos : ℚ := 0
  deriving DecidableEq

/-- `DeductionDetail.total_deducciones`: sum of all sixteen fields. -/
def DeductionDetail.total_deducciones (d : DeductionDetail) : ℚ :=
  d.tasa_voluntaria + d.tasa_ejecutiva + d.tasa_ejecutiva_sin_recargo +
  d.tasa_baja_organo_gestor_deleg + d.tasa_gestion_tributaria + d.tasa_gestion_censal +
  d.tasa_gestion_catastral + d.tasa_sancion_tributaria + d.tasa_sancion_recaudacion +
  d.tasa_sancion_inspeccion + d.tasa_multas_trafico + d.gastos_repercutidos +
  d.anticipos + d.intereses_por_anticipo + d.expedientes_compensacion +
  d.expedientes_ingresos_indebidos

/-- `LiquidationDocument`, restricted to the fields that the two validators
read (header, refund and verification fields never enter `validate_totals`
or `validate_exercise_summaries` and are omitted). -/
structure LiquidationDocument where
  tribute_records : List TributeRecord
  exercise_summaries : List ExerciseSummary
  total_voluntaria : ℚ := 0
  total_ejecutiva : ℚ := 0
  total_recargo : ℚ := 0
  total_diputacion_voluntaria : ℚ := 0
  total_diputacion_ejecutiva : ℚ := 0
  total_diputacion_recargo : ℚ := 0
  total_liquido : ℚ := 0
  deductions : Option DeductionDetail := none
  a_liquidar : ℚ := 0
  deriving DecidableEq

/-- `LiquidationDocument.get_records_by_year`. -/
def LiquidationDocument.get_records_by_year (d : LiquidationDocument) (y : Nat) :
    List TributeRecord :=
  d.tribute_records.filter (fun r => r.ejercicio = y)

/-- A validation error message.  Each Python message string is an f-string
whose text is uniquely determined by the violated field together with the
calculated and documented values, so messages are modelled structurally by
this type (list equality of messages then coincides with Python string-list
equality). -/
inductive ValidationMessage
  | voluntariaMismatch (calculated documented : ℚ)
  | ejecutivaMismatch (calculated documented : ℚ)
  | recargoMismatch (calculated documented : ℚ)
  | liquidoMismatch (calculated documented : ℚ)
  | aLiquidarMismatch (expected documented : ℚ)
  | dipVoluntariaMismatch (calculated documented : ℚ)
  | dipEjecutivaMismatch (calculated documented : ℚ)
  | dipRecargoMismatch (calculated documented : ℚ)
  deriving DecidableEq

/-- The fixed one-cent tolerance of both validators. -/
def tolC : ℚ := 1 / 100

/-- `LiquidationDocument.validate_totals` (lines 227-260): compare the sums
of the record amounts with the documented grand totals for voluntaria,
ejecutiva, recargo and liquido, then check the `a_liquidar` formula when
deductions are present. -/
def LiquidationDocument.validate_totals (d : LiquidationDocument) : List ValidationMessage :=
  let cv := (d.tribute_records.map (fun r => r.voluntaria)).sum
  let ce := (d.tribute_records.map (fun r => r.ejecutiva)).sum
  let cr := (d.tribute_records.map (fun r => r.recargo)).sum
  let cl := (d.tribute_records.map (fun r => r.liquido)).sum
  (if |cv - d.total_voluntaria| > tolC then [ValidationMessage.voluntariaMismatch cv d.total_voluntaria] else []) ++
  (if |ce - d.total_ejecutiva| > tolC then [ValidationMessage.ejecutivaMismatch ce d.total_ejecutiva] else []) ++
  (if |cr - d.total_recargo| > tolC then [ValidationMessage.recargoMismatch cr d.total_recargo] else []) ++
  (if |cl - d.total_liquido| > tolC then [ValidationMessage.liquidoMismatch cl d.total_liquido] else []) ++
  (match d.deductions with
   | some ded =>
     let expected := d.total_liquido - ded.total_deducciones
     if |expected - d.a_liquidar| > tolC then [ValidationMessage.aLiquidarMismatch expected d.a_liquidar] else []
   | none => [])

/-- `ExerciseValidationResult` (lines 61-85). -/
structure ExerciseValidationResult where
  ejercicio : Nat
  is_valid : Bool
  calc_voluntaria : ℚ
  calc_ejecutiva : ℚ
  calc_recargo : ℚ
  calc_dip_voluntaria : ℚ
  calc_dip_ejecutiva : ℚ
  calc_dip_recargo : ℚ
  calc_liquido : ℚ
  doc_voluntaria : ℚ
  doc_ejecutiva : ℚ
  doc_recargo : ℚ
  doc_dip_voluntaria : ℚ
  doc_dip_ejecutiva : ℚ
  doc_dip_recargo : ℚ
  doc_liquido : ℚ
  errors : List ValidationMessage

/-- Result for one `ExerciseSummary` inside `validate_exercise_summaries`
(lines 274-338): seven per-field deltas against the one-cent tolerance; any
excess appends a message and invalidates the year. -/
def mkExerciseResult (d : LiquidationDocument) (s : ExerciseSummary) : ExerciseValidationResult :=
  let yr := d.get_records_by_year s.ejercicio
  let cv := (yr.map (fun r => r.voluntaria)).sum
  let ce := (yr.map (fun r => r.ejecutiva)).sum
  let cr := (yr.map (fun r => r.recargo)).sum
  let cdv := (yr.map (fun r => r.diputacion_voluntaria)).sum
  let cde := (yr.map (fun r => r.diputacion_ejecutiva)).sum
  let cdr := (yr.map (fun r => r.diputacion_recargo)).sum
  let cl := (yr.map (fun r => r.liquido)).sum
  let b1 : Bool := |cv - s.voluntaria| > tolC
  let b2 : Bool := |ce - s.ejecutiva| > tolC
  let b3 : Bool := |cr - s.recargo| > tolC
  let b4 : Bool := |cdv - s.diputacion_voluntaria| > tolC
  let b5 : Bool := |cde - s.diputacion_ejecutiva| > tolC
  let b6 : Bool := |cdr - s.diputacion_recargo| > tolC
  let b7 : Bool := |cl - s.liquido| > tolC
  { ejercicio := s.ejercicio
    is_valid := !(b1 || b2 || b3 || b4 || b5 || b6 || b7)
    calc_voluntaria := cv, calc_ejecutiva := ce, calc_recargo := cr
    calc_dip_voluntaria := cdv, calc_dip_ejecutiva := cde, calc_dip_recargo := cdr
    calc_liquido := cl
    doc_voluntaria := s.voluntaria, doc_ejecutiva := s.ejecutiva, doc_recargo := s.recargo
    doc_dip_voluntaria := s.diputacion_voluntaria, doc_dip_ejecutiva := s.diputacion_ejecutiva
    doc_dip_recargo := s.diputacion_recargo, doc_liquido := s.liquido
    errors :=
      (if b1 then [ValidationMessage.voluntariaMismatch cv s.voluntaria] else []) ++
      (if b2 then [ValidationMessage.ejecutivaMismatch ce s.ejecutiva] else []) ++
      (if b3 then [ValidationMessage.recargoMismatch cr s.recargo] else []) ++
      (if b4 then [ValidationMessage.dipVoluntariaMismatch cdv s.diputacion_voluntaria] else []) ++
      (if b5 then [ValidationMessage.dipEjecutivaMismatch cde s.diputacion_ejecutiva] else []) ++
      (if b6 then [ValidationMessage.dipRecargoMismatch cdr s.diputacion_recargo] else []) ++
      (if b7 then [ValidationMessage.liquidoMismatch cl s.liquido] else []) }

/-- `LiquidationDocument.validate_exercise_summaries` (lines 262-342): one
result per declared summary, in iteration order (the Python dict keyed by
year is this list with right-biased collapse on duplicate years). -/
def LiquidationDocument.validate_exercise_summaries (d : LiquidationDocument) :
    List ExerciseValidationResult :=
  d.exercise_summaries.map (mkExerciseResult d)

/-! ## Totals-locator line processing (`_find_and_extract_totals`, lines 707-750) -/

/-- Accumulated grand totals touched by the multi-line-cell loop. -/
structure TotalsAcc where
  voluntaria : ℚ := 0
  ejecutiva : ℚ := 0
  recargo : ℚ := 0
  diputacion_voluntaria : ℚ := 0
  diputacion_ejecutiva : ℚ := 0
  diputacion_recargo : ℚ := 0
  deriving DecidableEq

/-- One line of the totals multi-line cell (lines 711-750): strip, then the
if/elif chain — a plain `VOLUNTARIA`/`EJECUTIVA`/`RECARGO` prefix match, else
the `DIPUTACI`-containing variants; each consumes a label-and-number
pattern. -/
def processTotalsLine (t : TotalsAcc) (line0 : Str) : TotalsAcc :=
  let line := trim line0
  if line = [] then t
  else if "VOLUNTARIA".toList.isPrefixOf line then
    match searchLabelAmount "VOLUNTARIA".toList line with
    | some amt => { t with voluntaria := parse_amount (some amt) }
    | none => t
  else if "EJECUTIVA".toList.isPrefixOf line then
    match searchLabelAmount "EJECUTIVA".toList line with
    | some amt => { t with ejecutiva := parse_amount (some amt) }
    | none => t
  else if "RECARGO".toList.isPrefixOf line then
    match searchLabelAmount "RECARGO".toList line with
    | some amt => { t with recargo := parse_amount (some amt) }
    | none => t
  else if containsSub "DIPUTACI".toList (upperS line) && containsSub "VOLUNTARIA".toList line then
    match searchLabelAmount "VOLUNTARIA".toList line with
    | some amt => { t with diputacion_voluntaria := parse_amount (some amt) }
    | none => t
  else if containsSub "DIPUTACI".toList (upperS line) && containsSub "EJECUTIVA".toList line then
    match searchLabelAmount "EJECUTIVA".toList line with
    | some amt => { t with diputacion_ejecutiva := parse_amount (some amt) }
    | none => t
  else if containsSub "DIPUTACI".toList (upperS line) && containsSub "RECARGO".toList line then
    match searchLabelAmount "RECARGO".toList line with
    | some amt => { t with diputacion_recargo := parse_amount (some amt) }
    | none => t
  else t

/-- The whole loop over the lines of the grand-totals multi-line cell. -/
def processTotalsCell (cell : Str) : TotalsAcc :=
  (splitNl cell).foldl processTotalsLine {}

/-! ## Extraction entry point and error wrapping (`extract`, lines 35-55 and
57-156, and `extract_liquidation_pdf`, lines 1136-1148) -/

/-- The two exception kinds observable at the entry point in the model. -/
inductive PyError
  | fileNotFoundError
  | pdfExtractionError
  deriving DecidableEq

/-- Abstraction of a successfully opened PDF: its pages as raw tables. -/
structure PdfData where
  pages : List Page

/-- Model of `extract_liquidation_pdf`: the constructor checks
`self.pdf_path.exists()` and raises a bare `FileNotFoundError` (line 45)
before `extract` ever runs; inside `extract`, `pdfplumber.open` failure (an
unreadable PDF, modelled by `opened = none`) and any other internal failure
are caught by the enclosing `try` and re-raised as `PDFExtractionError`
(line 156).  The pure row-processing part of the model is total, so the
successful result is the record/summary extraction over the pages. -/
def extract_liquidation_pdf (pathExists : Bool) (opened : Option PdfData) :
    Except PyError (List TributeRecord × List ExerciseSummary) :=
  if !pathExists then Except.error PyError.fileNotFoundError
  else
    match opened with
    | none => Except.error PyError.pdfExtractionError
    | some pdf => Except.ok (extractAllPages pdf.pages)

/-! ## General helper lemmas -/

lemma pyStrIfTruthy_some (s : Str) : pyStrIfTruthy (some s) = s := by
  cases s <;> rfl

lemma dropWhile_eq_nil_of_all {p : Char → Bool} {s : Str} (h : ∀ c ∈ s, p c = true) :
    s.dropWhile p = [] := by
  induction s with
  | nil => rfl
  | cons c cs ih =>
    rw [List.dropWhile_cons, if_pos (h c (List.mem_cons_self c cs))]
    exact ih (fun x hx => h x (List.mem_cons_of_mem c hx))

lemma dropWhile_eq_self_of_head {p : Char → Bool} {c : Char} {cs : Str} (h : p c = false) :
    (c :: cs).dropWhile p = c :: cs := by
  rw [List.dropWhile_cons, if_neg (by simp [h])]

lemma ltrim_eq_self_of_all {s : Str} (h : ∀ c ∈ s, isPyWS c = false) : ltrim s = s := by
  cases s with
  | nil => rfl
  | cons c cs => exact dropWhile_eq_self_of_head (h c (List.mem_cons_self c cs))

lemma trim_eq_self_of_all {s : Str} (h : ∀ c ∈ s, isPyWS c = false) : trim s = s := by
  unfold trim rtrim
  rw [ltrim_eq_self_of_all h, ltrim_eq_self_of_all (by intro c hc; exact h c (List.mem_reverse.mp hc)),
    List.reverse_reverse]

lemma ltrim_ltrim (s : Str) : ltrim (ltrim s) = ltrim s := by
  unfold ltrim
  induction s with
  | nil => rfl
  | cons c cs ih =>
    by_cases h : isPyWS c = true
    · rw [List.dropWhile_cons, if_pos (by simp [h]), ih]
    · rw [List.dropWhile_cons, if_neg (by simp at h; simp [h]), List.dropWhile_cons,
        if_neg (by simp at h; simp [h])]

lemma ltrim_prefix_head {s : Str} : ltrim s = [] ∨ ∃ c cs, ltrim s = c :: cs ∧ isPyWS c = false := by
  induction s with
  | nil => exact Or.inl rfl
  | cons c cs ih =>
    by_cases h : isPyWS c = true
    · rw [show ltrim (c :: cs) = ltrim cs from by unfold ltrim; rw [List.dropWhile_cons, if_pos (by simp [h])]]
      exact ih
    · exact Or.inr ⟨c, cs, by unfold ltrim; rw [List.dropWhile_cons, if_neg (by simp [h])], by simpa using h⟩

lemma rtrim_prefix (s : Str) : ∃ t, s = rtrim s ++ t := by
  unfold rtrim ltrim
  obtain ⟨t, ht⟩ : ∃ t, s.reverse = t ++ s.reverse.dropWhile isPyWS := by
    refine ⟨s.reverse.takeWhile isPyWS, ?_⟩
    rw [List.takeWhile_append_dropWhile]
  refine ⟨t.reverse, ?_⟩
  conv_lhs => rw [← s.reverse_reverse, ht]
  rw [List.reverse_append]

lemma trim_trim (s : Str) : trim (trim s) = trim s := by
  unfold trim
  have hu : ltrim (rtrim (ltrim s)) = rtrim (ltrim s) := by
    rcases ltrim_prefix_head (s := s) with h0 | ⟨c, cs, hc, hw⟩
    · unfold rtrim; rw [h0]; rfl
    · obtain ⟨t, ht⟩ := rtrim_prefix (ltrim s)
      rcases heq : rtrim (ltrim s) with _ | ⟨d, ds⟩
      · rfl
      · have hcd : c = d := by
          rw [heq, hc, List.cons_append] at ht
          exact (List.cons.injEq _ _ _ _ ▸ ht).1
        exact dropWhile_eq_self_of_head (hcd ▸ hw)
  rw [hu]
  have : ∀ u : Str, rtrim (rtrim u) = rtrim u := by
    intro u
    unfold rtrim
    rw [List.reverse_reverse, ltrim_ltrim]
  exact this (ltrim s)

lemma collapseWS_nil : collapseWS [] = [] := rfl

lemma parse_amount_none : parse_amount none = 0 := rfl

lemma parse_amount_some_nil : parse_amount (some []) = 0 := rfl

lemma parse_amount_some_trim (s : Str) : parse_amount (some (trim s)) = parse_amount (some s) := by
  by_cases hs : s = []
  · subst hs; rfl
  · by_cases ht : trim s = []
    · have h1 : parse_amount_core (some s) = none := by
        unfold parse_amount_core
        simp [hs, ht]
      have h2 : parse_amount_core (some (trim s)) = none := by rw [ht]; rfl
      simp [parse_amount, h1, h2]
    · have h3 : parse_amount_core (some (trim s)) = parse_amount_core (some s) := by
        unfold parse_amount_core
        simp only [if_neg hs, if_neg ht, trim_trim]
      simp [parse_amount, h3]

lemma parse_amount_pyStrIfTruthy (c : Cell) :
    parse_amount (some (pyStrIfTruthy c)) = parse_amount c := by
  match c with
  | none => rfl
  | some [] => rfl
  | some (a :: l) => rw [pyStrIfTruthy_some]

/-! ## Claim C7: amount-parser totality and leniency -/

/-- C7: `_parse_amount` never raises: it is a total function in this model,
and every early-return input (`None`, the empty string, a whitespace-only
string, a lone dash) as well as every string on which the `Decimal`
constructor fails (`parse_amount_core` returning `none` covers exactly the
early returns and the constructor failure) yields exactly zero. -/
theorem parse_amount_total_leniency :
    parse_amount none = 0 ∧
    parse_amount (some []) = 0 ∧
    parse_amount (some ['-']) = 0 ∧
    (∀ s : Str, (∀ c ∈ s, isPyWS c = true) → parse_amount (some s) = 0) ∧
    (∀ v : Cell, parse_amount_core v = none → parse_amount v = 0) := by
  refine ⟨rfl, rfl, rfl, ?_, ?_⟩
  · intro s hws
    rcases s with _ | ⟨c, cs⟩
    · rfl
    · have hcore : parse_amount_core (some (c :: cs)) = none := by
        unfold parse_amount_core
        have htr : trim (c :: cs) = [] := by
          have h1 : ltrim (c :: cs) = [] := dropWhile_eq_nil_of_all hws
          unfold trim
          rw [h1]
          rfl
        simp [htr]
      simp [parse_amount, hcore]
  · intro v hv
    simp [parse_amount, hv]

/-- Closed instances discharging the hypotheses of
`parse_amount_total_leniency` at concrete inputs. -/
theorem parse_amount_total_leniency_witness :
    parse_amount (some ['a', 'b', 'c']) = 0 ∧ parse_amount (some [' ', '\t']) = 0 :=
  ⟨parse_amount_total_leniency.2.2.2.2 (some ['a', 'b', 'c']) (by decide),
   parse_amount_total_leniency.2.2.2.1 [' ', '\t'] (by decide)⟩

/-! ## Claim C9: error wrapping at the extraction entry point -/

/-- C9 counterexample: a non-existent source path makes the constructor raise
a bare `FileNotFoundError` (line 45 of `pdf_extractor.py`), which is not the
wrapped `PDFExtractionError` the claim requires for every failure. -/
theorem extract_entry_file_not_found_counterexample :
    extract_liquidation_pdf false none = Except.error PyError.fileNotFoundError ∧
    PyError.fileNotFoundError ≠ PyError.pdfExtractionError := by
  exact ⟨rfl, by decide⟩

/-- C9 amended: once the path exists (so the constructor succeeds), every
failure of the model surfaces as the single wrapped `PDFExtractionError`; in
particular an unreadable PDF does, and no other error kind escapes. -/
theorem extract_entry_single_error_kind (opened : Option PdfData) :
    (∃ v, extract_liquidation_pdf true opened = Except.ok v) ∨
    extract_liquidation_pdf true opened = Except.error PyError.pdfExtractionError := by
  cases opened with
  | none => exact Or.inr rfl
  | some pdf => exact Or.inl ⟨extractAllPages pdf.pages, rfl⟩

/-! ## Claim C10: `validate_totals` never reads the provincial-share totals -/

/-- C10: two documents identical except in the three provincial-share grand
totals (`total_diputacion_voluntaria`, `total_diputacion_ejecutiva`,
`total_diputacion_recargo`) produce the same `validate_totals` error list:
the validator only compares the voluntaria/ejecutiva/recargo/liquido sums
and the `a_liquidar` formula. -/
theorem validate_totals_ignores_diputacion (d1 d2 : LiquidationDocument)
    (h1 : d1.tribute_records = d2.tribute_records)
    (h2 : d1.exercise_summaries = d2.exercise_summaries)
    (h3 : d1.total_voluntaria = d2.total_voluntaria)
    (h4 : d1.total_ejecutiva = d2.total_ejecutiva)
    (h5 : d1.total_recargo = d2.total_recargo)
    (h6 : d1.total_liquido = d2.total_liquido)
    (h7 : d1.deductions = d2.deductions)
    (h8 : d1.a_liquidar = d2.a_liquidar) :
    d1.validate_totals = d2.validate_totals := by
  unfold LiquidationDocument.validate_totals
  rw [h1, h3, h4, h5, h6, h7, h8]

/-- Closed instance of `validate_totals_ignores_diputacion`: two documents
differing only in the three provincial-share totals. -/
theorem validate_totals_ignores_diputacion_witness :
    ({ tribute_records := [], exercise_summaries := [],
       total_diputacion_voluntaria := 5, total_diputacion_ejecutiva := 6,
       total_diputacion_recargo := 7 } : LiquidationDocument).validate_totals =
    ({ tribute_records := [], exercise_summaries := [] } :
      LiquidationDocument).validate_totals :=
  validate_totals_ignores_diputacion _ _ rfl rfl rfl rfl rfl rfl rfl rfl

/-! ## Claim C3: fiscal-year inference priority -/

/-- Values of all four-digit runs of a string, by starting position. -/
def fourDigitValuesAux : Str → List Nat
  | [] => []
  | c :: cs =>
    match fourDigitsAt (c :: cs) with
    | some y => y :: fourDigitValuesAux cs
    | none => fourDigitValuesAux cs

/-- All in-range (2000-2030) four-digit numbers occurring in a string — the
claim's notion of a bare plausible year found in a cell. -/
def inRangeYears (s : Str) : List Nat :=
  (fourDigitValuesAux s).filter (fun y => 2000 ≤ y && y ≤ 2030)

/-- The amended year-priority chain, written as the spec's ordered list of
extractors: (a) a `026/YYYY/` match in the collection key wins unless
`YYYY = 0000`, which skips directly to the accounting key; (b) with no `026`
match, the first four-digit run of the collection key is used exactly when it
lies in 2000-2030; (c) else the first four-digit run of the accounting key
when in range; (d) else a non-zero caller hint; (e) else the hardcoded 2025. -/
def claimYear (rec cont : Str) (hint : Option Nat) : Nat :=
  let defaultYear : Nat :=
    match hint with
    | some h => if h = 0 then 2025 else h
    | none => 2025
  let firstRun4InRange : Str → Option Nat := fun s =>
    match search4 s with
    | some y => if 2000 ≤ y && y ≤ 2030 then some y else none
    | none => none
  let fromAccounting : Nat :=
    match firstRun4InRange cont with
    | some y => y
    | none => defaultYear
  match search026 rec with
  | some 0 => fromAccounting
  | some (y + 1) => y + 1
  | none =>
    match firstRun4InRange rec with
    | some y => y
    | none => fromAccounting

lemma search026_nil : search026 [] = none := rfl

lemma search4_nil : search4 [] = none := rfl


set_option maxHeartbeats 1000000 in
/-- The source's year computation agrees with the amended priority chain on
every input. -/
lemma inferEjercicio_eq_claimYear (rec cont : Str) (hint : Option Nat) :
    inferEjercicio rec cont hint = claimYear rec cont hint := by
  unfold inferEjercicio extractedEjercicio claimYear optTruthy
  by_cases hrec : rec = [] <;>
  by_cases hcont : cont = [] <;>
    simp only [hrec, hcont, search026_nil, search4_nil, ne_eq, ite_not, Bool.not_false,
      Bool.not_true, decide_True, decide_False, Bool.true_and, Bool.false_and, Bool.and_true,
      Bool.and_false, if_true, if_false, ite_true, ite_false, bne_self_eq_false]
  · rfl
  · cases h4c : search4 cont with
    | none => simp
    | some z =>
      by_cases hz : (decide (2000 ≤ z) && decide (z ≤ 2030)) = true
      · have hz0 : ¬ z = 0 := by simp at hz; omega
        simp [hz, hz0]
      · simp [hz]
  · cases h026 : search026 rec with
    | some y =>
      cases y with
      | zero => simp
      | succ y => simp
    | none =>
      cases h4r : search4 rec with
      | none => simp
      | some y =>
        by_cases hy : (decide (2000 ≤ y) && decide (y ≤ 2030)) = true
        · have hy0 : ¬ y = 0 := by simp at hy; omega
          simp [hy, hy0]
        · simp [hy]
  · cases h026 : search026 rec with
    | some y =>
      cases y with
      | zero =>
        simp only [if_neg (by simp : ¬ ((0:Nat) != 0) = true)]
        cases h4c : search4 cont with
        | none => simp
        | some z =>
          by_cases hz : (decide (2000 ≤ z) && decide (z ≤ 2030)) = true
          · have hz0 : ¬ z = 0 := by simp at hz; omega
            simp [hz, hz0]
          · simp [hz]
      | succ y => simp
    | none =>
      cases h4r : search4 rec with
      | none =>
        cases h4c : search4 cont with
        | none => simp
        | some z =>
          by_cases hz : (decide (2000 ≤ z) && decide (z ≤ 2030)) = true
          · have hz0 : ¬ z = 0 := by simp at hz; omega
            simp [hz, hz0]
          · simp [hz]
      | some y =>
        by_cases hy : (decide (2000 ≤ y) && decide (y ≤ 2030)) = true
        · have hy0 : ¬ y = 0 := by simp at hy; omega
          simp [hy, hy0]
        · simp only [hy, if_false]
          cases h4c : search4 cont with
          | none => simp
          | some z =>
            by_cases hz : (decide (2000 ≤ z) && decide (z ≤ 2030)) = true
            · have hz0 : ¬ z = 0 := by simp at hz; omega
              simp [hz, hz0]
            · simp [hz]

/-- Collection-key cell used by the C3 counterexample: it contains no
`026/YYYY/` pattern, and its only in-range four-digit number is 2024, but its
first four-digit run is 9999. -/
def cexC3Key : Str := "9999 2024".toList

/-- Row used by the C3 counterexample. -/
def cexC3Row : Row :=
  [some "X".toList, some [], some cexC3Key, some [], some [], some [], some [],
   some [], some [], some []]

/-- C3 counterexample: the claim's clause (b) — with no `026/YYYY/` match, the
year is a bare four-digit number in 2000-2030 found in the collection-key
cell — fails on `"9999 2024"`: 2024 is such a number, yet the source checks
only the *first* four-digit run (9999, out of range), skips the collection
key entirely, and falls back to the hardcoded 2025, which does not occur in
the cell at all. -/
theorem year_inference_first_run_counterexample :
    search026 cexC3Key = none ∧
    inRangeYears cexC3Key = [2024] ∧
    (parseTributeRow cexC3Row none).map (fun r => r.ejercicio) = some 2025 ∧
    ¬ (2025 ∈ inRangeYears cexC3Key) := by
  decide

/-- C3 amended: for every row that assembles into a record, the record's
fiscal year follows the amended priority chain `claimYear` applied to the
stripped collection-key and accounting-key cells: a `026/YYYY/` match wins
(unless `YYYY = 0000`, which skips to the accounting key), else the *first*
four-digit run of the collection key when within 2000-2030, else the first
four-digit run of the accounting key when within range, else a non-zero
caller hint, else 2025. -/
theorem year_inference_priority (row : Row) (hint : Option Nat) (r : TributeRecord)
    (h : parseTributeRow row hint = some r) :
    r.ejercicio =
      claimYear (trim (pyStrIfTruthy (row.getD 2 none)))
        (trim (pyStrIfTruthy (row.getD 1 none))) hint := by
  unfold parseTributeRow at h
  by_cases h1 : row.length < 10
  · rw [if_pos h1] at h
    exact absurd h (by simp)
  · rw [if_neg h1] at h
    by_cases h2 : conceptRejected (cleanConcept (row.getD 0 none)) = true
    · rw [if_pos h2] at h
      exact absurd h (by simp)
    · rw [if_neg h2] at h
      have hr : r = mkTributeRecord row hint := (Option.some.injEq _ _ ▸ h).symm
      subst hr
      unfold mkTributeRecord
      exact inferEjercicio_eq_claimYear _ _ _

/-- Closed instance of `year_inference_priority`: the collection key
`026/2024/20` forces year 2024 even though the accounting key contains
2023. -/
theorem year_inference_priority_witness :
    (mkTributeRecord
        [some "FOO".toList, some "2023/M/1".toList, some "026/2024/20".toList, some [],
         some [], some [], some [], some [], some [], some []] none).ejercicio =
      claimYear (trim (pyStrIfTruthy "026/2024/20".toList))
        (trim (pyStrIfTruthy "2023/M/1".toList)) none :=
  year_inference_priority
    [some "FOO".toList, some "2023/M/1".toList, some "026/2024/20".toList, some [],
     some [], some [], some [], some [], some [], some []] none _ rfl

example : claimYear "026/2024/20".toList "2023/M/1".toList none = 2024 := by decide

/-! ## Claim C8: totals-locator label disambiguation -/

def c8Cell : Str := "VOLUNTARIA 100,00\nDIPUTACIÓN VOLUNTARIA 10,00".toList

/-- C8: on the totals block whose multi-line cell holds the lines
`VOLUNTARIA 100,00` and `DIPUTACIÓN VOLUNTARIA 10,00`, the line loop assigns
`voluntaria = 100.00` and `diputacion_voluntaria = 10.00` without conflating
the two; and on every input line prefixed (after stripping) by `DIPUTACIÓN`,
the plain `VOLUNTARIA`/`EJECUTIVA`/`RECARGO` branches never fire, so the
three plain totals are left untouched. -/
theorem totals_label_disambiguation :
    ((processTotalsCell c8Cell).voluntaria = 100 ∧
     (processTotalsCell c8Cell).diputacion_voluntaria = 10) ∧
    ∀ (t : TotalsAcc) (line : Str),
      ("DIPUTACIÓN".toList.isPrefixOf (trim line)) = true →
        (processTotalsLine t line).voluntaria = t.voluntaria ∧
        (processTotalsLine t line).ejecutiva = t.ejecutiva ∧
        (processTotalsLine t line).recargo = t.recargo := by
  constructor
  · constructor
    · have h1 : (processTotalsCell c8Cell).voluntaria = parse_amount (some "100,00".toList) := rfl
      have hc : parse_amount_core (some "100,00".toList) = some ⟨false, 100, 0, 2, 0⟩ := by decide
      rw [h1, parse_amount, hc]
      simp [DecLit.toRat]
    · have h1 : (processTotalsCell c8Cell).diputacion_voluntaria
          = parse_amount (some "10,00".toList) := rfl
      have hc : parse_amount_core (some "10,00".toList) = some ⟨false, 10, 0, 2, 0⟩ := by decide
      rw [h1, parse_amount, hc]
      simp [DecLit.toRat]
  · intro t line h
    have hlit : ("DIPUTACIÓN".toList) = 'D' :: "IPUTACIÓN".toList := rfl
    rcases hL : trim line with _ | ⟨d, ds⟩
    · rw [hL, hlit] at h
      simp [List.isPrefixOf] at h
    · rw [hL, hlit] at h
      have hd : d = 'D' := by
        simp [List.isPrefixOf] at h
        exact h.1.symm
      subst hd
      have hV : (("VOLUNTARIA".toList).isPrefixOf ('D' :: ds)) = false := by
        rw [show ("VOLUNTARIA".toList) = 'V' :: "OLUNTARIA".toList from rfl]
        simp [List.isPrefixOf]
      have hE : (("EJECUTIVA".toList).isPrefixOf ('D' :: ds)) = false := by
        rw [show ("EJECUTIVA".toList) = 'E' :: "JECUTIVA".toList from rfl]
        simp [List.isPrefixOf]
      have hR : (("RECARGO".toList).isPrefixOf ('D' :: ds)) = false := by
        rw [show ("RECARGO".toList) = 'R' :: "ECARGO".toList from rfl]
        simp [List.isPrefixOf]
      unfold processTotalsLine
      rw [hL]
      simp only [hV, hE, hR, if_false, Bool.false_eq_true, reduceCtorEq, ite_false]
      repeat' (split <;> (try simp))

/-- Closed instance of the universal part of `totals_label_disambiguation`
at a concrete `DIPUTACIÓN`-prefixed line. -/
theorem totals_label_disambiguation_witness :
    (processTotalsLine {} "DIPUTACIÓN VOLUNTARIA 10,00".toList).voluntaria =
      ({} : TotalsAcc).voluntaria :=
  (totals_label_disambiguation.2 {} "DIPUTACIÓN VOLUNTARIA 10,00".toList (by decide)).1

/-! ## Claim C5: reconciliation of records, summaries and grand totals -/

lemma sum_filter_split (l : List TributeRecord) (p : TributeRecord → Bool) (f : TributeRecord → ℚ) :
    ((l.filter p).map f).sum + ((l.filter (fun a => !p a)).map f).sum = (l.map f).sum := by
  induction l with
  | nil => simp
  | cons a l ih =>
    by_cases hp : p a = true <;> simp [hp, ← ih] <;> ring

lemma sum_partition_by_year (records : List TributeRecord) (summaries : List ExerciseSummary)
    (f : TributeRecord → ℚ) (g : ExerciseSummary → ℚ)
    (hnd : (summaries.map (fun s => s.ejercicio)).Nodup)
    (hcov : ∀ r ∈ records, ∃ s ∈ summaries, s.ejercicio = r.ejercicio)
    (hex : ∀ s ∈ summaries,
      ((records.filter (fun r => r.ejercicio = s.ejercicio)).map f).sum = g s) :
    (records.map f).sum = (summaries.map g).sum := by
  induction summaries generalizing records with
  | nil =>
    cases records with
    | nil => simp
    | cons r rs =>
      obtain ⟨s, hs, -⟩ := hcov r (List.mem_cons_self r rs)
      exact absurd hs (List.not_mem_nil s)
  | cons s ss ih =>
    have hsplit := sum_filter_split records (fun r => decide (r.ejercicio = s.ejercicio)) f
    have hhead : ((records.filter (fun r => decide (r.ejercicio = s.ejercicio))).map f).sum = g s :=
      hex s (List.mem_cons_self s ss)
    have hynotin : s.ejercicio ∉ ss.map (fun x => x.ejercicio) := (List.nodup_cons.mp hnd).1
    have htail :
        ((records.filter (fun r => !decide (r.ejercicio = s.ejercicio))).map f).sum
          = (ss.map g).sum := by
      apply ih
      · exact (List.nodup_cons.mp hnd).2
      · intro r hr
        have hr2 := List.mem_filter.mp hr
        obtain ⟨s2, hs2, he2⟩ := hcov r hr2.1
        have hne : r.ejercicio ≠ s.ejercicio := by
          have := hr2.2
          simp at this
          exact this
        rcases List.mem_cons.mp hs2 with rfl | hs2t
        · exact absurd he2.symm hne
        · exact ⟨s2, hs2t, he2⟩
      · intro s2 hs2
        have heq :
            (records.filter (fun r => !decide (r.ejercicio = s.ejercicio))).filter
                (fun r => r.ejercicio = s2.ejercicio)
              = records.filter (fun r => r.ejercicio = s2.ejercicio) := by
          rw [List.filter_filter]
          apply List.filter_congr
          intro r hr
          have hne : s2.ejercicio ≠ s.ejercicio := by
            intro he
            exact hynotin (he ▸ List.mem_map_of_mem (fun x => x.ejercicio) hs2)
          by_cases h2 : r.ejercicio = s2.ejercicio
          · simp [h2, hne]
          · simp [h2]
        rw [heq]
        exact hex s2 (List.mem_cons_of_mem s hs2)
    rw [← hsplit, hhead, htail, List.map_cons, List.sum_cons]

/-- The claim's hypothesis as stated: per declared fiscal year, the seven
summed record amounts lie within `tol` of the corresponding summary field. -/
def recordYearSumsWithin (d : LiquidationDocument) (tol : ℚ) : Prop :=
  ∀ s ∈ d.exercise_summaries,
    |((d.get_records_by_year s.ejercicio).map (fun r => r.voluntaria)).sum - s.voluntaria| ≤ tol ∧
    |((d.get_records_by_year s.ejercicio).map (fun r => r.ejecutiva)).sum - s.ejecutiva| ≤ tol ∧
    |((d.get_records_by_year s.ejercicio).map (fun r => r.recargo)).sum - s.recargo| ≤ tol ∧
    |((d.get_records_by_year s.ejercicio).map (fun r => r.diputacion_voluntaria)).sum - s.diputacion_voluntaria| ≤ tol ∧
    |((d.get_records_by_year s.ejercicio).map (fun r => r.diputacion_ejecutiva)).sum - s.diputacion_ejecutiva| ≤ tol ∧
    |((d.get_records_by_year s.ejercicio).map (fun r => r.diputacion_recargo)).sum - s.diputacion_recargo| ≤ tol ∧
    |((d.get_records_by_year s.ejercicio).map (fun r => r.liquido)).sum - s.liquido| ≤ tol

/-- Strengthened per-year hypothesis: the seven sums match exactly. -/
def recordYearSumsExact (d : LiquidationDocument) : Prop :=
  ∀ s ∈ d.exercise_summaries,
    ((d.get_records_by_year s.ejercicio).map (fun r => r.voluntaria)).sum = s.voluntaria ∧
    ((d.get_records_by_year s.ejercicio).map (fun r => r.ejecutiva)).sum = s.ejecutiva ∧
    ((d.get_records_by_year s.ejercicio).map (fun r => r.recargo)).sum = s.recargo ∧
    ((d.get_records_by_year s.ejercicio).map (fun r => r.diputacion_voluntaria)).sum = s.diputacion_voluntaria ∧
    ((d.get_records_by_year s.ejercicio).map (fun r => r.diputacion_ejecutiva)).sum = s.diputacion_ejecutiva ∧
    ((d.get_records_by_year s.ejercicio).map (fun r => r.diputacion_recargo)).sum = s.diputacion_recargo ∧
    ((d.get_records_by_year s.ejercicio).map (fun r => r.liquido)).sum = s.liquido

/-- The summaries sum exactly to the seven declared grand totals. -/
def summariesMatchTotals (d : LiquidationDocument) : Prop :=
  (d.exercise_summaries.map (fun s => s.voluntaria)).sum = d.total_voluntaria ∧
  (d.exercise_summaries.map (fun s => s.ejecutiva)).sum = d.total_ejecutiva ∧
  (d.exercise_summaries.map (fun s => s.recargo)).sum = d.total_recargo ∧
  (d.exercise_summaries.map (fun s => s.diputacion_voluntaria)).sum = d.total_diputacion_voluntaria ∧
  (d.exercise_summaries.map (fun s => s.diputacion_ejecutiva)).sum = d.total_diputacion_ejecutiva ∧
  (d.exercise_summaries.map (fun s => s.diputacion_recargo)).sum = d.total_diputacion_recargo ∧
  (d.exercise_summaries.map (fun s => s.liquido)).sum = d.total_liquido

/-- Document of the C5 counterexample: two fiscal years whose record sums
each deviate from their (all-zero) summaries by exactly one cent — within
the per-year tolerance — while the summaries sum exactly to the (all-zero)
grand totals.  The two one-cent deviations accumulate to two cents in the
overall check. -/
def cexC5Doc : LiquidationDocument :=
  { tribute_records :=
      [{ concepto := ['A'], clave_contabilidad := [], clave_recaudacion := [],
         voluntaria := 1 / 100, ejecutiva := 0, recargo := 0, diputacion_voluntaria := 0,
         diputacion_ejecutiva := 0, diputacion_recargo := 0, liquido := 0, ejercicio := 2024 },
       { concepto := ['B'], clave_contabilidad := [], clave_recaudacion := [],
         voluntaria := 1 / 100, ejecutiva := 0, recargo := 0, diputacion_voluntaria := 0,
         diputacion_ejecutiva := 0, diputacion_recargo := 0, liquido := 0, ejercicio := 2025 }]
    exercise_summaries :=
      [{ ejercicio := 2024, voluntaria := 0, ejecutiva := 0, recargo := 0,
         diputacion_voluntaria := 0, diputacion_ejecutiva := 0, diputacion_recargo := 0,
         liquido := 0 },
       { ejercicio := 2025, voluntaria := 0, ejecutiva := 0, recargo := 0,
         diputacion_voluntaria := 0, diputacion_ejecutiva := 0, diputacion_recargo := 0,
         liquido := 0 }] }

/-- C5 counterexample: `cexC5Doc` satisfies the claim's hypotheses verbatim —
every year's record sums are within 0.01 per field of its summary and the
summaries sum exactly to the grand totals — and `validate_exercise_summaries`
indeed reports every year valid, yet `validate_totals` is *not* empty: the
two per-year one-cent deviations add up to two cents against the grand
total, which exceeds the fixed 0.01 tolerance. -/
theorem reconciliation_tolerance_counterexample :
    recordYearSumsWithin cexC5Doc tolC ∧
    summariesMatchTotals cexC5Doc ∧
    (∀ res ∈ cexC5Doc.validate_exercise_summaries, res.is_valid = true) ∧
    cexC5Doc.validate_totals ≠ [] := by
  have habs1 : |(1 : ℚ) / 100| = 1 / 100 := by
    rw [abs_of_nonneg]
    norm_num
  have habs2 : |(1 : ℚ) / 50| = 1 / 50 := by
    rw [abs_of_nonneg]
    norm_num
  refine ⟨?_, ?_, ?_, ?_⟩
  · intro s hs
    simp only [cexC5Doc, List.mem_cons, List.not_mem_nil, or_false] at hs
    rcases hs with rfl | rfl <;>
      (refine ⟨?_, ?_, ?_, ?_, ?_, ?_, ?_⟩ <;>
        (simp [LiquidationDocument.get_records_by_year, cexC5Doc, tolC, habs1]
         <;> norm_num [abs_le]))
  · refine ⟨?_, ?_, ?_, ?_, ?_, ?_, ?_⟩ <;> simp [cexC5Doc, summariesMatchTotals]
  · intro res hres
    simp only [LiquidationDocument.validate_exercise_summaries, cexC5Doc, List.map_cons,
      List.map_nil, List.mem_cons, List.not_mem_nil, or_false] at hres
    rcases hres with rfl | rfl <;>
      (unfold mkExerciseResult;
       simp [LiquidationDocument.get_records_by_year, cexC5Doc, tolC, habs1]
       <;> norm_num [abs_le])
  · unfold LiquidationDocument.validate_totals
    simp [cexC5Doc, tolC, habs2]
    rw [show |(100 : ℚ)⁻¹ + 100⁻¹| = 100⁻¹ + 100⁻¹ from abs_of_nonneg (by norm_num)]
    norm_num

/-- C5 amended: when the per-year sums match their summaries *exactly* (the
within-0.01 hypothesis is too weak, as deviations from distinct years
accumulate in the grand total), the summary years are distinct, every
record's year has a declared summary, the summaries sum exactly to the grand
totals, and there are no deductions (so the `a_liquidar` check is skipped),
`validate_exercise_summaries` reports every year valid and `validate_totals`
returns the empty error list. -/
theorem reconciliation_exact (d : LiquidationDocument)
    (hnd : (d.exercise_summaries.map (fun s => s.ejercicio)).Nodup)
    (hcov : ∀ r ∈ d.tribute_records, ∃ s ∈ d.exercise_summaries, s.ejercicio = r.ejercicio)
    (hex : recordYearSumsExact d)
    (ht : summariesMatchTotals d)
    (hded : d.deductions = none) :
    (∀ res ∈ d.validate_exercise_summaries, res.is_valid = true) ∧
    d.validate_totals = [] := by
  constructor
  · intro res hres
    simp only [LiquidationDocument.validate_exercise_summaries, List.mem_map] at hres
    obtain ⟨s, hs, rfl⟩ := hres
    obtain ⟨e1, e2, e3, e4, e5, e6, e7⟩ := hex s hs
    unfold mkExerciseResult
    simp only [e1, e2, e3, e4, e5, e6, e7, sub_self, abs_zero, tolC]
    norm_num
  · have hv : ((d.tribute_records.map (fun r => r.voluntaria)).sum) = d.total_voluntaria := by
      rw [← ht.1]
      exact sum_partition_by_year _ _ _ _ hnd hcov (fun s hs => (hex s hs).1)
    have he : ((d.tribute_records.map (fun r => r.ejecutiva)).sum) = d.total_ejecutiva := by
      rw [← ht.2.1]
      exact sum_partition_by_year _ _ _ _ hnd hcov (fun s hs => (hex s hs).2.1)
    have hr : ((d.tribute_records.map (fun r => r.recargo)).sum) = d.total_recargo := by
      rw [← ht.2.2.1]
      exact sum_partition_by_year _ _ _ _ hnd hcov (fun s hs => (hex s hs).2.2.1)
    have hl : ((d.tribute_records.map (fun r => r.liquido)).sum) = d.total_liquido := by
      rw [← ht.2.2.2.2.2.2]
      exact sum_partition_by_year _ _ _ _ hnd hcov (fun s hs => (hex s hs).2.2.2.2.2.2)
    unfold LiquidationDocument.validate_totals
    simp only [hv, he, hr, hl, hded, sub_self, abs_zero, tolC]
    norm_num

/-- One-year document with no records and an all-zero summary, used by the
closed instance of the amended C5 theorem. -/
def c5WitnessDoc : LiquidationDocument :=
  { tribute_records := []
    exercise_summaries :=
      [{ ejercicio := 2024, voluntaria := 0, ejecutiva := 0, recargo := 0,
         diputacion_voluntaria := 0, diputacion_ejecutiva := 0, diputacion_recargo := 0,
         liquido := 0 }] }

/-- Closed instance of `reconciliation_exact` on a one-year document with no
records and an all-zero summary. -/
theorem reconciliation_exact_witness :
    (∀ res ∈ c5WitnessDoc.validate_exercise_summaries, res.is_valid = true) ∧
    c5WitnessDoc.validate_totals = [] :=
  reconciliation_exact c5WitnessDoc (by simp [c5WitnessDoc]) (by simp [c5WitnessDoc])
    (by
      intro s hs
      simp only [c5WitnessDoc, List.mem_cons, List.not_mem_nil, or_false] at hs
      subst hs
      simp [c5WitnessDoc, LiquidationDocument.get_records_by_year])
    (by refine ⟨?_, ?_, ?_, ?_, ?_, ?_, ?_⟩ <;> simp [c5WitnessDoc])
    rfl

/-! ## Claim C2: multi-record split -/

lemma getD_replicate {α : Type} (n k : Nat) (a d : α) (h : k < n) :
    (List.replicate n a).getD k d = a := by
  rw [List.getD_eq_getElem?_getD, List.getElem?_replicate, if_pos h]
  rfl

lemma enum_map_getD {α : Type} (l : Row) (f : Nat × Cell → α) (j : Nat) (d : α)
    (h : j < l.length) :
    (l.enum.map f).getD j d = f (j, l.getD j none) := by
  rw [List.getD_eq_getElem?_getD, List.getElem?_map, List.getElem?_enum]
  rw [List.getElem?_eq_getElem h]
  simp [List.getD_eq_getElem?_getD, List.getElem?_eq_getElem h]

lemma map_getD_range {α β : Type} (l : List α) (g : α → β) (d : α) :
    (List.range l.length).map (fun k => g (l.getD k d)) = l.map g := by
  apply List.ext_getElem
  · simp
  · intro i h1 h2
    simp only [List.getElem_map, List.getElem_range]
    rw [List.getD_eq_getElem?_getD, List.getElem?_eq_getElem (by simpa using h2)]
    rfl

lemma multiFold_out (rows : List Row) (st : PState) (acc : PageOut) :
    (rows.foldl multiStep (st, acc)).2 =
      { records := acc.records ++ rows.filterMap (fun r => parseTributeRow r acc.curEx)
        summaries := acc.summaries
        curEx := acc.curEx } := by
  induction rows generalizing st acc with
  | nil => simp
  | cons r rs ih =>
    rw [List.foldl_cons]
    cases hp : parseTributeRow r acc.curEx with
    | some rec =>
      have hstep : multiStep (st, acc) r =
          ({ st with lastRow := some r }, { acc with records := acc.records ++ [rec] }) := by
        unfold multiStep
        simp [hp]
      rw [hstep, ih]
      simp [List.filterMap_cons, hp, List.append_assoc]
    | none =>
      have hstep : multiStep (st, acc) r = (st, acc) := by
        unfold multiStep
        simp [hp]
      rw [hstep, ih]
      simp [List.filterMap_cons, hp]

lemma synthRow_length (row : Row) (k : Nat) : (synthRow row k).length = row.length := by
  simp [synthRow]

lemma isMulti_claveCell (row : Row) (hm : isMultiRecordRow row = true) :
    1 < row.length ∧ cellTruthy (row.getD 1 none) = true ∧
      pyStrIfTruthy (row.getD 1 none) = claveContCell row ∧
      '\n' ∈ claveContCell row := by
  have hmem : '\n' ∈ claveContCell row := by
    unfold isMultiRecordRow at hm
    exact of_decide_eq_true (Bool.and_eq_true_iff.mp hm).1
  by_cases hc : (row.length > 1 && cellTruthy (row.getD 1 none)) = true
  · obtain ⟨h1, h2⟩ := Bool.and_eq_true_iff.mp hc
    refine ⟨by simpa using h1, h2, ?_, hmem⟩
    unfold claveContCell pyStrIfTruthy
    rw [if_pos hc, if_pos h2]
  · have : claveContCell row = [] := by
      unfold claveContCell
      rw [if_neg hc]
    rw [this] at hmem
    exact absurd hmem (List.not_mem_nil _)

/-- Column-indexed amount accessor matching the fixed column layout. -/
def amountAt (r : TributeRecord) (j : Nat) : ℚ :=
  if j = 3 then r.voluntaria else if j = 4 then r.ejecutiva else if j = 5 then r.recargo
  else if j = 6 then r.diputacion_voluntaria else if j = 7 then r.diputacion_ejecutiva
  else if j = 8 then r.diputacion_recargo else if j = 9 then r.liquido else 0

lemma amountAt_mk (row : Row) (hint : Option Nat) (j : Nat) (h3 : 3 ≤ j) (h9 : j ≤ 9) :
    amountAt (mkTributeRecord row hint) j = parse_amount (row.getD j none) := by
  interval_cases j <;> rfl

lemma synthRow_getD_zero (row : Row) (k : Nat) (h0 : 0 < row.length)
    (hk : k < (splitNl (claveContCell row)).length) :
    (synthRow row k).getD 0 none = some (multiSharedConcept row) := by
  unfold synthRow
  rw [enum_map_getD _ _ _ _ h0]
  unfold synthCellLines multiSharedConcept
  by_cases h : decide ('\n' ∈ pyStrIfTruthy (row.getD 0 none)) = true
  · simp only [h, if_true, if_pos rfl]
    rw [getD_replicate _ _ _ _ hk]
  · simp only [Bool.not_eq_true] at h
    simp only [h, Bool.false_eq_true, if_false]
    rw [getD_replicate _ _ _ _ hk]

lemma synthRow_getD_one (row : Row) (k : Nat) (hm : isMultiRecordRow row = true)
    (hk : k < (splitNl (claveContCell row)).length) :
    (synthRow row k).getD 1 none = some ((splitNl (claveContCell row)).getD k []) := by
  obtain ⟨h1, h2, h3, h4⟩ := isMulti_claveCell row hm
  unfold synthRow
  rw [enum_map_getD _ _ _ _ h1]
  unfold synthCellLines
  rw [h3]
  simp [h4]

lemma synthRow_getD_amount (row : Row) (j k : Nat) (h3 : 3 ≤ j) (hj : j < row.length)
    (hk : k < (splitNl (claveContCell row)).length) :
    (synthRow row k).getD j none =
      some ((synthCellLines (splitNl (claveContCell row)).length j (row.getD j none)).getD k []) := by
  unfold synthRow
  rw [enum_map_getD _ _ _ _ hj]

lemma synthRow_parse (row : Row) (k : Nat) (hlen : 10 ≤ row.length)
    (hC : conceptRejected (collapseWS (trim (multiSharedConcept row))) = false)
    (hk : k < (splitNl (claveContCell row)).length) :
    parseTributeRow (synthRow row k) none = some (mkTributeRecord (synthRow row k) none) := by
  unfold parseTributeRow
  rw [if_neg (by rw [synthRow_length]; omega)]
  rw [if_neg ?hcr]
  case hcr =>
    rw [synthRow_getD_zero row k (by omega) hk]
    unfold cleanConcept
    rw [pyStrIfTruthy_some]
    simp [hC]

/-- C2: on every row classified multi-record-merged (line-broken
accounting-key cell with more than one key pattern) reaching the engine in a
clean state, the engine synthesizes one record per line of that cell: the
record list is exactly the parses of the synthesized rows, the accounting
keys are exactly the (stripped) lines of the cell, every record shares the
single joined concept string, amount columns without line breaks are
replicated into every record and columns with line breaks are distributed
per-line; when the cell's stripped lines are pairwise distinct, so are the
emitted accounting keys (in particular three distinct line-separated key
patterns yield exactly three records with three distinct keys). -/
theorem multi_record_split (row : Row)
    (hlen : 10 ≤ row.length)
    (hh : headerRow row = false)
    (hp : isPartialRow row = false)
    (hm : isMultiRecordRow row = true)
    (hC : conceptRejected (collapseWS (trim (multiSharedConcept row))) = false) :
    (rowStep (initPState, emptyPageOut) row).2.records
        = (List.range (splitNl (claveContCell row)).length).map
            (fun k => mkTributeRecord (synthRow row k) none) ∧
    (rowStep (initPState, emptyPageOut) row).2.records.map (fun r => r.clave_contabilidad)
        = (splitNl (claveContCell row)).map trim ∧
    (∀ r ∈ (rowStep (initPState, emptyPageOut) row).2.records,
        r.concepto = collapseWS (trim (multiSharedConcept row))) ∧
    (((splitNl (claveContCell row)).map trim).Nodup →
        ((rowStep (initPState, emptyPageOut) row).2.records.map
          (fun r => r.clave_contabilidad)).Nodup) ∧
    (∀ j, 3 ≤ j → j ≤ 9 → ¬ ('\n' ∈ pyStrIfTruthy (row.getD j none)) →
        ∀ k, k < (splitNl (claveContCell row)).length →
          amountAt (mkTributeRecord (synthRow row k) none) j = parse_amount (row.getD j none)) ∧
    (∀ j, 3 ≤ j → j ≤ 9 → '\n' ∈ pyStrIfTruthy (row.getD j none) →
        ∀ k, k < (splitNl (claveContCell row)).length →
          amountAt (mkTributeRecord (synthRow row k) none) j
            = parse_amount (some ((splitNl (pyStrIfTruthy (row.getD j none))).getD k []))) := by
  have hred : (rowStep (initPState, emptyPageOut) row).2
      = (handleMulti initPState emptyPageOut row).2 := by
    unfold rowStep
    rw [if_neg (by omega)]
    show (mainDispatch initPState emptyPageOut row).2 = _
    unfold mainDispatch
    simp only [hh, hp, hm, Bool.false_eq_true, if_false, if_true]
  have hrecords : (rowStep (initPState, emptyPageOut) row).2.records
      = (List.range (splitNl (claveContCell row)).length).map
          (fun k => mkTributeRecord (synthRow row k) none) := by
    rw [hred]
    unfold handleMulti
    rw [multiFold_out]
    simp only [emptyPageOut, List.nil_append]
    rw [List.filterMap_map]
    rw [List.filterMap_congr (g := fun k => some (mkTributeRecord (synthRow row k) none))
      (by
        intro k hk
        exact synthRow_parse row k hlen hC (List.mem_range.mp hk))]
    rw [show (fun k => some (mkTributeRecord (synthRow row k) none))
        = some ∘ (fun k => mkTributeRecord (synthRow row k) none) from rfl]
    rw [List.filterMap_eq_map]
  refine ⟨hrecords, ?_, ?_, ?_, ?_, ?_⟩
  · rw [hrecords, List.map_map]
    have hstep : ∀ k ∈ List.range (splitNl (claveContCell row)).length,
        ((fun r => r.clave_contabilidad) ∘ fun k => mkTributeRecord (synthRow row k) none) k
          = trim ((splitNl (claveContCell row)).getD k []) := by
      intro k hk
      show (mkTributeRecord (synthRow row k) none).clave_contabilidad = _
      unfold mkTributeRecord
      rw [synthRow_getD_one row k hm (List.mem_range.mp hk), pyStrIfTruthy_some]
    rw [List.map_congr_left hstep]
    exact map_getD_range (splitNl (claveContCell row)) trim []
  · intro r hr
    rw [hrecords] at hr
    obtain ⟨k, hk, rfl⟩ := List.mem_map.mp hr
    show cleanConcept ((synthRow row k).getD 0 none) = _
    rw [synthRow_getD_zero row k (by omega) (List.mem_range.mp hk)]
    unfold cleanConcept
    rw [pyStrIfTruthy_some]
  · intro hnd
    have h2 : (rowStep (initPState, emptyPageOut) row).2.records.map
        (fun r => r.clave_contabilidad) = (splitNl (claveContCell row)).map trim := by
      rw [hrecords, List.map_map]
      have hstep : ∀ k ∈ List.range (splitNl (claveContCell row)).length,
          ((fun r => r.clave_contabilidad) ∘ fun k => mkTributeRecord (synthRow row k) none) k
            = trim ((splitNl (claveContCell row)).getD k []) := by
        intro k hk
        show (mkTributeRecord (synthRow row k) none).clave_contabilidad = _
        unfold mkTributeRecord
        rw [synthRow_getD_one row k hm (List.mem_range.mp hk), pyStrIfTruthy_some]
      rw [List.map_congr_left hstep]
      exact map_getD_range (splitNl (claveContCell row)) trim []
    rw [h2]
    exact hnd
  · intro j h3 h9 hno k hk
    rw [amountAt_mk _ _ _ h3 h9]
    rw [synthRow_getD_amount row j k h3 (by omega) hk]
    unfold synthCellLines
    simp only [decide_eq_true_eq]
    rw [if_neg (by simpa using hno)]
    rw [getD_replicate _ _ _ _ hk]
    exact parse_amount_pyStrIfTruthy (row.getD j none)
  · intro j h3 h9 hyes k hk
    rw [amountAt_mk _ _ _ h3 h9]
    rw [synthRow_getD_amount row j k h3 (by omega) hk]
    unfold synthCellLines
    simp only [decide_eq_true_eq]
    rw [if_pos (by simpa using hyes), if_neg (by omega : ¬ j = 0)]

/-- Concrete multi-record-merged row with three line-separated key patterns,
used by the closed instance of `multi_record_split`. -/
def c2Row : Row := [some "MULTAS VARIAS".toList,
  some "2024/M/0001\n2024/M/0002\n2025/M/0003".toList,
  some "026/2024/1\n026/2024/2\n026/2025/3".toList,
  some "1,00\n2,00\n3,00".toList, some "0,00".toList, some "0,00".toList, some "0,00".toList,
  some "0,00".toList, some "0,00".toList, some "1,00\n2,00\n3,00".toList]

/-- Closed instance of `multi_record_split` at `c2Row`: three records, with
the three distinct accounting keys drawn from the cell's lines. -/
theorem multi_record_split_witness :
    (rowStep (initPState, emptyPageOut) c2Row).2.records
        = (List.range (splitNl (claveContCell c2Row)).length).map
            (fun k => mkTributeRecord (synthRow c2Row k) none) ∧
    (rowStep (initPState, emptyPageOut) c2Row).2.records.map (fun r => r.clave_contabilidad)
        = (splitNl (claveContCell c2Row)).map trim ∧
    ((rowStep (initPState, emptyPageOut) c2Row).2.records.map
        (fun r => r.clave_contabilidad)).Nodup := by
  have h := multi_record_split c2Row (by decide) (by decide) (by decide) (by decide) (by decide)
  exact ⟨h.1, h.2.1, h.2.2.2.1 (by decide)⟩

example : (splitNl (claveContCell c2Row)).length = 3 := by decide

/-! ## Claim C4: concept+total-merged row split -/

lemma ctSplit_fst_length (row : Row) (h : 1 ≤ row.length) :
    (ctSplit row).1.length = row.length := by
  unfold ctSplit
  simp
  omega

lemma ctSplit_snd_length (row : Row) (h : 1 ≤ row.length) :
    (ctSplit row).2.length = row.length := by
  unfold ctSplit
  simp
  omega

lemma ctSplit_col (row : Row) (j : Nat) (hk : cellTruthy (row.getD 1 none) = true)
    (h1 : 1 ≤ j) (hj : j < row.length) :
    (ctSplit row).1.getD j none =
      some (if (cellTruthy (row.getD j none) && decide ('\n' ∈ pyStr (row.getD j none))) = true
            then (splitNl (pyStr (row.getD j none))).getD 0 []
            else pyStrIfTruthy (row.getD j none)) ∧
    (ctSplit row).2.getD j [] =
      (if (cellTruthy (row.getD j none) && decide ('\n' ∈ pyStr (row.getD j none))) = true
       then (splitNl (pyStr (row.getD j none))).getD 1 []
       else []) := by
  obtain ⟨j, rfl⟩ : ∃ i, j = i + 1 := ⟨j - 1, by omega⟩
  have hdrop : (row.drop 1).getD j none = row.getD (j + 1) none := by
    rw [List.getD_eq_getElem?_getD, List.getD_eq_getElem?_getD, List.getElem?_drop,
      Nat.add_comm]
  have hjlen : j < (row.drop 1).length := by
    rw [List.length_drop]
    omega
  unfold ctSplit
  simp only [hk, Bool.not_true, Bool.false_eq_true, if_false]
  constructor
  · rw [List.getD_cons_succ, List.map_map, enum_map_getD _ _ _ _ hjlen, hdrop]
    simp only [Function.comp_apply, Option.isSome_none, Bool.and_false, Bool.false_eq_true,
      if_false]
    split <;> simp_all
  · rw [List.getD_cons_succ, List.map_map, enum_map_getD _ _ _ _ hjlen, hdrop]
    simp only [Function.comp_apply, Option.isSome_none, Bool.and_false, Bool.false_eq_true,
      if_false]
    split <;> simp_all


/-- C4 amended: on every concept+total-merged row (with a non-empty
accounting-key cell, so the key-recovery branch is inactive) reaching the
engine in a clean state: every other column with an embedded line break sends
its first line to the record and its second to the total, columns without
line breaks go entirely to the record leaving the total's column empty, the
record is emitted, and a total/summary is emitted exactly when some total
cell is non-empty and a four-digit year is found in the total row's THIRD
cell (the second embedded line of the collection-key column) — not in the
`TOTAL EJERCICIO` line itself; with no year there, no summary is emitted. -/
theorem concept_total_split (row : Row)
    (hlen : 10 ≤ row.length)
    (hh : headerRow row = false)
    (hp : isPartialRow row = false)
    (hm : isMultiRecordRow row = false)
    (hct : isConceptTotalRow row = true)
    (hk : cellTruthy (row.getD 1 none) = true)
    (hrec : conceptRejected (cleanConcept ((ctSplit row).1.getD 0 none)) = false) :
    (rowStep (initPState, emptyPageOut) row).2.records
        = [mkTributeRecord (ctSplit row).1 none] ∧
    (∀ j, 1 ≤ j → j < row.length →
      ((cellTruthy (row.getD j none) && decide ('\n' ∈ pyStr (row.getD j none))) = true →
        (ctSplit row).1.getD j none = some ((splitNl (pyStr (row.getD j none))).getD 0 []) ∧
        (ctSplit row).2.getD j [] = (splitNl (pyStr (row.getD j none))).getD 1 []) ∧
      ((cellTruthy (row.getD j none) && decide ('\n' ∈ pyStr (row.getD j none))) = false →
        (ctSplit row).1.getD j none = some (pyStrIfTruthy (row.getD j none)) ∧
        (ctSplit row).2.getD j [] = [])) ∧
    ((ctSplit row).2.any (fun s => s ≠ []) = true →
      (∀ y, search4 ((ctSplit row).2.getD 2 []) = some y →
        (rowStep (initPState, emptyPageOut) row).2.summaries
          = [parseSummaryRow ((ctSplit row).2.map some) y]) ∧
      (search4 ((ctSplit row).2.getD 2 []) = none →
        (rowStep (initPState, emptyPageOut) row).2.summaries = [])) ∧
    ((ctSplit row).2.any (fun s => s ≠ []) = false →
      (rowStep (initPState, emptyPageOut) row).2.summaries = []) := by
  have hred : (rowStep (initPState, emptyPageOut) row).2
      = (handleConceptTotal initPState emptyPageOut row).2 := by
    unfold rowStep
    rw [if_neg (by omega)]
    show (mainDispatch initPState emptyPageOut row).2 = _
    unfold mainDispatch
    simp only [hh, hp, hm, hct, Bool.false_eq_true, if_false, if_true]
  have hparse : parseTributeRow (ctSplit row).1 none
      = some (mkTributeRecord (ctSplit row).1 none) := by
    unfold parseTributeRow
    rw [if_neg (by rw [ctSplit_fst_length row (by omega)]; omega)]
    rw [if_neg (by
      have h := hrec
      simp only [List.getD_eq_getElem?_getD] at h ⊢
      simp [h])]
  have hlen2 : (ctSplit row).2.length > 2 := by
    rw [ctSplit_snd_length row (by omega)]
    omega
  refine ⟨?_, ?_, ?_, ?_⟩
  · rw [hred]
    simp only [handleConceptTotal, hparse, emptyPageOut]
    split
    · split <;> rfl
    · rfl
  · intro j h1 hj
    constructor
    · intro hc
      have h := ctSplit_col row j hk h1 hj
      rw [hc] at h
      simpa using h
    · intro hc
      have h := ctSplit_col row j hk h1 hj
      rw [hc] at h
      simpa using h
  · intro hany
    constructor
    · intro y h4
      rw [hred]
      simp only [handleConceptTotal, hparse, emptyPageOut, hany, if_pos hlen2, h4]
      simp
    · intro h4
      rw [hred]
      simp only [handleConceptTotal, hparse, emptyPageOut, hany, if_pos hlen2, h4]
      simp
  · intro hany
    rw [hred]
    simp only [handleConceptTotal, hparse, emptyPageOut, hany, Bool.false_eq_true, if_false]

/-- Concept+total-merged row whose `TOTAL EJERCICIO` line carries the year
2024 while the collection-key column has no second line. -/
def c4CexRow : Row := [some "REC A\nB\nTOTAL EJERCICIO 2024".toList, some "2025/M/1".toList,
  some "026/2024/1".toList, some "1,00".toList, some "0,00".toList, some "0,00".toList,
  some "0,00".toList, some "0,00".toList, some "0,00".toList, some "1,00".toList]

/-- C4 counterexample: on `c4CexRow` — a concept+total-merged row whose total
line reads `TOTAL EJERCICIO 2024` — the claim requires a summary with the
total line's embedded year 2024, but the source searches the year only in
the total row's third cell, which is empty here (the collection-key column
has no line break), so the record is emitted and **no** summary at all is
emitted. -/
theorem concept_total_year_source_counterexample :
    isConceptTotalRow c4CexRow = true ∧
    containsSub "TOTAL EJERCICIO".toList (upperS ((ctSplit c4CexRow).2.getD 0 [])) = true ∧
    search4 ((ctSplit c4CexRow).2.getD 0 []) = some 2024 ∧
    (ctSplit c4CexRow).2.getD 2 [] = [] ∧
    (rowStep (initPState, emptyPageOut) c4CexRow).2.records.map (fun r => r.concepto)
      = ["REC A B".toList] ∧
    (rowStep (initPState, emptyPageOut) c4CexRow).2.summaries = [] := by
  decide

/-- Concept+total-merged row used by the closed instance of
`concept_total_split`: its collection-key column has an embedded line break
whose second line carries the year. -/
def c4WitnessRow : Row := [some "REC A\nB\nTOTAL EJERCICIO 2024".toList, some "2025/M/1".toList,
  some "026/2024/1\n2024".toList, some "1,00\n1,00".toList, some "0,00".toList,
  some "0,00".toList, some "0,00".toList, some "0,00".toList, some "0,00".toList,
  some "1,00\n1,00".toList]

/-- Closed instance of `concept_total_split` at `c4WitnessRow`. -/
theorem concept_total_split_witness :
    (rowStep (initPState, emptyPageOut) c4WitnessRow).2.records
        = [mkTributeRecord (ctSplit c4WitnessRow).1 none] ∧
    (rowStep (initPState, emptyPageOut) c4WitnessRow).2.summaries
        = [parseSummaryRow ((ctSplit c4WitnessRow).2.map some) 2024] := by
  have h := concept_total_split c4WitnessRow (by decide) (by decide) (by decide) (by decide)
    (by decide) (by decide) (by decide)
  exact ⟨h.1, (h.2.2.1 (by decide)).1 2024 (by decide)⟩

/-! ## Claim C1: backward cross-page merge -/

lemma isPartial_facts (P : Row) (hP : isPartialRow P = true) :
    8 ≤ P.length ∧ trim (pyStrIfTruthy (P.getD 0 none)) ≠ [] ∧
    (∀ i, 1 ≤ i → i ≤ 9 → i < P.length → trim (pyStr (P.getD i none)) = []) := by
  unfold isPartialRow at hP
  by_cases h8 : P.length < 8
  · rw [if_pos h8] at hP
    exact absurd hP (by simp)
  · rw [if_neg h8] at hP
    by_cases hf : trim (pyStrIfTruthy (P.getD 0 none)) = []
    · rw [if_pos hf] at hP
      exact absurd hP (by simp)
    · rw [if_neg hf] at hP
      by_cases hkw : (containsSub "CONCEPTO".toList (upperS (trim (pyStrIfTruthy (P.getD 0 none)))) ||
          containsSub "CLAVE".toList (upperS (trim (pyStrIfTruthy (P.getD 0 none)))) ||
          containsSub "TOTAL EJERCICIO".toList (upperS (trim (pyStrIfTruthy (P.getD 0 none))))) = true
      · rw [if_pos hkw] at hP
        exact absurd hP (by simp)
      · rw [if_neg hkw] at hP
        obtain ⟨hnum, hclv⟩ := Bool.and_eq_true_iff.mp hP
        refine ⟨by omega, hf, ?_⟩
        intro i h1 h9 hiP
        have hgd : P.getD i none = (P[i]?).getD none := List.getD_eq_getElem?_getD P i none
        by_cases hi2 : i ≤ 2
        · have hcell : ((P.drop 1).take 2)[i - 1]? = some (P.getD i none) := by
            rw [List.getElem?_take_of_lt (by omega), List.getElem?_drop,
              show 1 + (i - 1) = i from by omega, hgd]
            rw [List.getElem?_eq_getElem (by omega)]
            simp [List.getElem?_eq_getElem (show i < P.length from hiP)]
          have hmem : P.getD i none ∈ (P.drop 1).take 2 := List.getElem?_mem hcell
          have hcl2 : ((P.drop 1).take 2).all (fun c => trim (pyStr c) = []) = true := by
            have : (if P.length > 2 then (P.drop 1).take 2 else ([] : Row))
                = (P.drop 1).take 2 := if_pos (by omega)
            rw [← this]
            exact hclv
          have := List.all_eq_true.mp hcl2 _ hmem
          exact of_decide_eq_true this
        · by_cases h9l : P.length > 9
          · have hcell : ((P.drop 3).take 7)[i - 3]? = some (P.getD i none) := by
              rw [List.getElem?_take_of_lt (by omega), List.getElem?_drop,
                show 3 + (i - 3) = i from by omega, hgd]
              rw [List.getElem?_eq_getElem (by omega)]
              simp [List.getElem?_eq_getElem (show i < P.length from hiP)]
            have hmem : P.getD i none ∈ (P.drop 3).take 7 := List.getElem?_mem hcell
            have hnm2 : ((P.drop 3).take 7).all (fun c => trim (pyStr c) = []) = true := by
              have : (if P.length > 9 then (P.drop 3).take 7 else P.drop 3) = (P.drop 3).take 7 :=
                if_pos h9l
              rw [← this]
              exact hnum
            have := List.all_eq_true.mp hnm2 _ hmem
            exact of_decide_eq_true this
          · have hcell : (P.drop 3)[i - 3]? = some (P.getD i none) := by
              rw [List.getElem?_drop, show 3 + (i - 3) = i from by omega, hgd]
              rw [List.getElem?_eq_getElem (by omega)]
              simp [List.getElem?_eq_getElem (show i < P.length from hiP)]
            have hmem : P.getD i none ∈ P.drop 3 := List.getElem?_mem hcell
            have hnm2 : (P.drop 3).all (fun c => trim (pyStr c) = []) = true := by
              have : (if P.length > 9 then (P.drop 3).take 7 else P.drop 3) = P.drop 3 :=
                if_neg h9l
              rw [← this]
              exact hnum
            have := List.all_eq_true.mp hnm2 _ hmem
            exact of_decide_eq_true this

lemma mergePartialRow_length (p c : Row) (h : 1 ≤ max p.length c.length) :
    (mergePartialRow p c).length = max p.length c.length := by
  unfold mergePartialRow
  simp
  omega

lemma mergePartialRow_getD_zero (p c : Row)
    (hpc : trim (pyStrIfTruthy (p.getD 0 none)) ≠ [])
    (hcc : trim (pyStrIfTruthy (c.getD 0 none)) ≠ []) :
    (mergePartialRow p c).getD 0 none
      = some (trim (pyStrIfTruthy (p.getD 0 none)) ++
          ' ' :: trim (pyStrIfTruthy (c.getD 0 none))) := by
  unfold mergePartialRow
  rw [List.getD_cons_zero, if_pos (by
    simp only [List.getD_eq_getElem?_getD] at hpc hcc
    simp [hpc, hcc])]

lemma mergePartialRow_getD (p c : Row) (i : Nat) (h1 : 1 ≤ i)
    (hi : i < max p.length c.length) :
    (mergePartialRow p c).getD i none =
      some (if (if (i < c.length && cellTruthy (c.getD i none)) = true
                then trim (pyStr (c.getD i none)) else []) ≠ []
            then (if (i < c.length && cellTruthy (c.getD i none)) = true
                  then trim (pyStr (c.getD i none)) else [])
            else (if (i < p.length && cellTruthy (p.getD i none)) = true
                  then trim (pyStr (p.getD i none)) else [])) := by
  obtain ⟨j, rfl⟩ : ∃ k, i = k + 1 := ⟨i - 1, by omega⟩
  unfold mergePartialRow
  rw [List.getD_cons_succ]
  rw [List.getD_eq_getElem?_getD, List.getElem?_map, List.getElem?_range (by omega)]
  rfl

lemma merge_amount_eq (R P : Row) (i : Nat) (h1 : 1 ≤ i) (h9 : i ≤ 9)
    (hR : 10 ≤ R.length) (hP : isPartialRow P = true) :
    parse_amount ((mergePartialRow R P).getD i none) = parse_amount (R.getD i none) := by
  have hmax : i < max R.length P.length := by
    have : i < R.length := by omega
    omega
  rw [mergePartialRow_getD R P i h1 hmax]
  have hcv : (if (i < P.length && cellTruthy (P.getD i none)) = true
      then trim (pyStr (P.getD i none)) else []) = [] := by
    by_cases hc : (i < P.length && cellTruthy (P.getD i none)) = true
    · rw [if_pos hc]
      have hip := (Bool.and_eq_true_iff.mp hc).1
      exact (isPartial_facts P hP).2.2 i h1 h9 (by simpa using hip)
    · rw [if_neg hc]
  rw [hcv]
  simp only [ne_eq, not_true_eq_false, if_false]
  by_cases hb : (i < R.length && cellTruthy (R.getD i none)) = true
  · have htr := (Bool.and_eq_true_iff.mp hb).2
    cases hcell : R.getD i none with
    | none =>
      rw [hcell] at htr
      exact absurd htr (by simp [cellTruthy])
    | some s =>
      rw [if_pos (by rw [← hcell]; exact hb)]
      exact parse_amount_some_trim s
  · rw [if_neg hb]
    have hx : cellTruthy (R.getD i none) = false := by
      rcases Bool.eq_false_or_eq_true (cellTruthy (R.getD i none)) with h | h
      · exfalso
        apply hb
        rw [h]
        simp only [Bool.and_true, decide_eq_true_eq]
        omega
      · exact h
    cases hcell : R.getD i none with
    | none => rfl
    | some s =>
      rw [hcell] at hx
      cases s with
      | nil => rfl
      | cons a t => exact absurd hx (by simp [cellTruthy])


/-- C1 amended: on a THREE-page document whose first page ends with a fully
valid data row `R` and whose second page begins with a partial (concept-only)
row `P` — the final page being reserved for totals and never scanned for
records — the engine discards the record emitted for `R` (via the cross-page
replacement flag, which makes the driver pop the last globally-appended
record) and the global output is exactly the one corrected record built from
the merged row: its seven amounts are `R`'s amounts and its concept is `R`'s
concept with `P`'s concept appended after a space; the total count is 1,
exactly one less than the two separate emissions the claim compares
against. -/
theorem backward_cross_page_merge (R P : Row) (lastPage : Page)
    (hRlen : 10 ≤ R.length)
    (hRconc : conceptRejected (cleanConcept (R.getD 0 none)) = false)
    (hRh : headerRow R = false)
    (hRp : isPartialRow R = false)
    (hRm : isMultiRecordRow R = false)
    (hRct : isConceptTotalRow R = false)
    (hRt : isTotalRow R = false)
    (hP : isPartialRow P = true)
    (hPh : headerRow P = false)
    (hMconc : conceptRejected (cleanConcept ((mergePartialRow R P).getD 0 none)) = false) :
    (extractAllPages [[[R]], [[P]], lastPage]).1
        = [mkTributeRecord (mergePartialRow R P) none] ∧
    (extractAllPages [[[R]], [[P]], lastPage]).1.length = 2 - 1 ∧
    (mkTributeRecord (mergePartialRow R P) none).concepto
        = collapseWS (trim (trim (pyStrIfTruthy (R.getD 0 none)) ++
            ' ' :: trim (pyStrIfTruthy (P.getD 0 none)))) ∧
    (mkTributeRecord (mergePartialRow R P) none).voluntaria
        = (mkTributeRecord R none).voluntaria ∧
    (mkTributeRecord (mergePartialRow R P) none).ejecutiva
        = (mkTributeRecord R none).ejecutiva ∧
    (mkTributeRecord (mergePartialRow R P) none).recargo
        = (mkTributeRecord R none).recargo ∧
    (mkTributeRecord (mergePartialRow R P) none).diputacion_voluntaria
        = (mkTributeRecord R none).diputacion_voluntaria ∧
    (mkTributeRecord (mergePartialRow R P) none).diputacion_ejecutiva
        = (mkTributeRecord R none).diputacion_ejecutiva ∧
    (mkTributeRecord (mergePartialRow R P) none).diputacion_recargo
        = (mkTributeRecord R none).diputacion_recargo ∧
    (mkTributeRecord (mergePartialRow R P) none).liquido
        = (mkTributeRecord R none).liquido := by
  have hfacts := isPartial_facts P hP
  have hP8 := hfacts.1
  have hRconc2 : conceptRejected (cleanConcept (R[0]?.getD none)) = false := by
    simpa only [List.getD_eq_getElem?_getD] using hRconc
  have hMconc2 : conceptRejected (cleanConcept ((mergePartialRow R P)[0]?.getD none)) = false := by
    simpa only [List.getD_eq_getElem?_getD] using hMconc
  have hparseR : parseTributeRow R none = some (mkTributeRecord R none) := by
    unfold parseTributeRow
    rw [if_neg (by omega), if_neg (by simp [hRconc2])]
  have hmaxpos : 1 ≤ max R.length P.length := by omega
  have hparseM : parseTributeRow (mergePartialRow R P) none
      = some (mkTributeRecord (mergePartialRow R P) none) := by
    unfold parseTributeRow
    rw [if_neg (by rw [mergePartialRow_length R P hmaxpos]; omega), if_neg (by simp [hMconc2])]
  have hpage1 : extractPage initPState [[R]]
      = ({ pending := none, lastRow := some R, replace := false },
         { records := [mkTributeRecord R none], summaries := [], curEx := none }) := by
    unfold extractPage
    simp only [List.foldl_cons, List.foldl_nil]
    rw [if_neg (by simp)]
    unfold rowStep
    rw [if_neg (by omega)]
    show mainDispatch initPState emptyPageOut R = _
    unfold mainDispatch
    simp only [hRh, hRp, hRm, hRct, hRt, Bool.false_eq_true, if_false, emptyPageOut]
    rw [hparseR]
    rfl
  have hpage2 : extractPage { pending := none, lastRow := some R, replace := false } [[P]]
      = ({ pending := none, lastRow := some (mergePartialRow R P), replace := true },
         { records := [mkTributeRecord (mergePartialRow R P) none], summaries := [],
           curEx := none }) := by
    unfold extractPage
    simp only [List.foldl_cons, List.foldl_nil]
    rw [if_neg (by simp)]
    unfold rowStep
    rw [if_neg (by omega)]
    show mainDispatch { pending := none, lastRow := some R, replace := false } emptyPageOut P = _
    unfold mainDispatch
    simp only [hPh, hP, Bool.false_eq_true, if_false, if_true]
    unfold handlePartialRow
    simp only [emptyPageOut]
    rw [hparseM]
    rfl
  have hg1 : pageStep ⟨[], [], initPState⟩ [[R]]
      = ⟨[mkTributeRecord R none], [], ⟨none, some R, false⟩⟩ := by
    unfold pageStep
    rw [if_neg (by simp)]
    rw [hpage1]
    simp
  have hg2 : pageStep ⟨[mkTributeRecord R none], [], ⟨none, some R, false⟩⟩ [[P]]
      = ⟨[mkTributeRecord (mergePartialRow R P) none], [],
          ⟨none, some (mergePartialRow R P), false⟩⟩ := by
    unfold pageStep
    rw [if_neg (by simp)]
    rw [hpage2]
    simp
  have hdrv : (extractAllPages [[[R]], [[P]], lastPage]).1
      = [mkTributeRecord (mergePartialRow R P) none] := by
    show (List.foldl pageStep ⟨[], [], initPState⟩ [[[R]], [[P]]]).records = _
    rw [List.foldl_cons, List.foldl_cons, List.foldl_nil, hg1, hg2]
  refine ⟨hdrv, by rw [hdrv]; rfl, ?_, ?_, ?_, ?_, ?_, ?_, ?_, ?_⟩
  · have hpc : trim (pyStrIfTruthy (R.getD 0 none)) ≠ [] := by
      intro h
      have hclean : cleanConcept (R.getD 0 none) = [] := by
        unfold cleanConcept
        rw [h]
        rfl
      unfold conceptRejected at hRconc
      rw [hclean] at hRconc
      simp at hRconc
    show cleanConcept ((mergePartialRow R P).getD 0 none) = _
    rw [mergePartialRow_getD_zero R P hpc hfacts.2.1]
    unfold cleanConcept
    rw [pyStrIfTruthy_some]
  · exact merge_amount_eq R P 3 (by omega) (by omega) hRlen hP
  · exact merge_amount_eq R P 4 (by omega) (by omega) hRlen hP
  · exact merge_amount_eq R P 5 (by omega) (by omega) hRlen hP
  · exact merge_amount_eq R P 6 (by omega) (by omega) hRlen hP
  · exact merge_amount_eq R P 7 (by omega) (by omega) hRlen hP
  · exact merge_amount_eq R P 8 (by omega) (by omega) hRlen hP
  · exact merge_amount_eq R P 9 (by omega) (by omega) hRlen hP

/-- Fully valid data row ending the first page in the C1 scenario. -/
def c1Rrow : Row := [some "FOO".toList, some "2024/M/0000731".toList, some "026/2024/20".toList,
  some "1,00".toList, some "0,00".toList, some "0,00".toList, some "0,00".toList,
  some "0,00".toList, some "0,00".toList, some "1,00".toList]

/-- Partial (concept-only) row beginning the next page in the C1 scenario. -/
def c1Prow : Row := [some "BAR".toList, some "".toList, some "".toList, some "".toList,
  some "".toList, some "".toList, some "".toList, some "".toList, some "".toList,
  some "".toList]

/-- C1 counterexample: on a TWO-page input whose first page ends with the
valid row `R` (concept `FOO`) and whose second page begins with the partial
row `P` (concept `BAR`), the claim requires one corrected record combining
the two concepts (`FOO BAR`); but the driver processes all pages *except the
very last one*, so for a two-page document the page holding `P` is never
scanned: the original record for `R` is kept unchanged, with concept `FOO`
and no trace of `P`. -/
theorem backward_merge_two_pages_counterexample :
    isPartialRow c1Prow = true ∧
    (parseTributeRow c1Rrow none).map (fun r => r.concepto) = some "FOO".toList ∧
    (extractAllPages [[[c1Rrow]], [[c1Prow]]]).1.map (fun r => r.concepto) = ["FOO".toList] ∧
    ("FOO".toList : Str) ≠ "FOO BAR".toList := by
  decide

/-- Closed instance of `backward_cross_page_merge` on the concrete three-page
document. -/
theorem backward_cross_page_merge_witness :
    (extractAllPages [[[c1Rrow]], [[c1Prow]], []]).1
      = [mkTributeRecord (mergePartialRow c1Rrow c1Prow) none] :=
  (backward_cross_page_merge c1Rrow c1Prow [] (by decide) (by decide) (by decide) (by decide)
    (by decide) (by decide) (by decide) (by decide) (by decide) (by decide)).1

example : (mkTributeRecord (mergePartialRow c1Rrow c1Prow) none).concepto
    = "FOO BAR".toList := by decide


/-! ## C6: the amount-parser round-trip -/

lemma dval_digitChar48 {d : Nat} (hd : d < 10) : dval (digitChar48 d) = d := by
  interval_cases d <;> decide

lemma isDigit_digitChar48 {d : Nat} (hd : d < 10) : (digitChar48 d).isDigit = true := by
  interval_cases d <;> decide

lemma not_isPyWS_digitChar48 {d : Nat} (hd : d < 10) : isPyWS (digitChar48 d) = false := by
  interval_cases d <;> decide

lemma digitChar48_ne {d : Nat} (hd : d < 10) :
    digitChar48 d ≠ '.' ∧ digitChar48 d ≠ ',' ∧ digitChar48 d ≠ '-' ∧
    digitChar48 d ≠ '+' ∧ digitChar48 d ≠ ' ' := by
  interval_cases d <;> exact ⟨by decide, by decide, by decide, by decide, by decide⟩

lemma natDigitsF_mem {fuel n : Nat} : ∀ c ∈ natDigitsF fuel n, ∃ d, d < 10 ∧ c = digitChar48 d := by
  induction fuel generalizing n with
  | zero => intro c hc; simp [natDigitsF] at hc
  | succ fuel ih =>
    intro c hc
    by_cases hn : n = 0
    · simp [natDigitsF, hn] at hc
    · unfold natDigitsF at hc
      rw [if_neg hn] at hc
      rcases List.mem_append.mp hc with h | h
      · exact ih c h
      · rw [List.mem_singleton] at h
        exact ⟨n % 10, Nat.mod_lt _ (by norm_num), h⟩

lemma natDigits_mem {n : Nat} : ∀ c ∈ natDigits n, ∃ d, d < 10 ∧ c = digitChar48 d := by
  intro c hc
  by_cases hn : n = 0
  · simp [natDigits, hn] at hc
    exact ⟨0, by norm_num, by rw [hc]; decide⟩
  · rw [natDigits, if_neg hn] at hc
    exact natDigitsF_mem c hc

lemma pad2_mem {b : Nat} (hb : b < 100) : ∀ c ∈ pad2 b, ∃ d, d < 10 ∧ c = digitChar48 d := by
  intro c hc
  rcases List.mem_cons.mp hc with h | h
  · exact ⟨b / 10, by omega, h⟩
  · rw [List.mem_singleton] at h
    exact ⟨b % 10, by omega, h⟩

lemma natDigits_ne_nil (n : Nat) : natDigits n ≠ [] := by
  by_cases hn : n = 0
  · simp [natDigits, hn]
  · rw [natDigits, if_neg hn]
    unfold natDigitsF
    rw [if_neg hn]
    simp

lemma readNatDigits_append_digit (xs : Str) (c : Char) :
    readNatDigits (xs ++ [c]) = 10 * readNatDigits xs + dval c := by
  unfold readNatDigits
  rw [List.foldl_append, List.foldl_cons, List.foldl_nil]

lemma readNatDigits_natDigitsF {fuel n : Nat} (h : n < 10 ^ fuel) :
    readNatDigits (natDigitsF fuel n) = n := by
  induction fuel generalizing n with
  | zero =>
    simp at h
    simp [h, natDigitsF, readNatDigits]
  | succ fuel ih =>
    by_cases hn : n = 0
    · simp [natDigitsF, hn, readNatDigits]
    · unfold natDigitsF
      rw [if_neg hn, readNatDigits_append_digit, dval_digitChar48 (Nat.mod_lt _ (by norm_num)),
        ih (by rw [pow_succ, Nat.mul_comm] at h; exact Nat.div_lt_of_lt_mul h)]
      omega

lemma readNatDigits_natDigits (n : Nat) : readNatDigits (natDigits n) = n := by
  by_cases hn : n = 0
  · simp [natDigits, hn, readNatDigits, dval]
  · rw [natDigits, if_neg hn]
    exact readNatDigits_natDigitsF
      (lt_of_lt_of_le (Nat.lt_pow_self (by norm_num) n) (Nat.pow_le_pow_right (by norm_num) (Nat.le_succ n)))

lemma readNatDigits_pad2 {b : Nat} (hb : b < 100) : readNatDigits (pad2 b) = b := by
  unfold pad2 readNatDigits
  rw [List.foldl_cons, List.foldl_cons, List.foldl_nil,
    dval_digitChar48 (show b / 10 < 10 by omega), dval_digitChar48 (show b % 10 < 10 by omega)]
  omega

lemma g3aux_mem {sep : Char} {l : Str} : ∀ k, ∀ c ∈ g3aux sep k l, c = sep ∨ c ∈ l := by
  induction l with
  | nil => intro k c hc; simp [g3aux] at hc
  | cons x t ih =>
    intro k c hc
    match k with
    | 0 =>
      unfold g3aux at hc
      rcases List.mem_cons.mp hc with h | h
      · exact Or.inl h
      · rcases List.mem_cons.mp h with h2 | h2
        · exact Or.inr (h2 ▸ List.mem_cons_self x t)
        · rcases ih 2 c h2 with h3 | h3
          · exact Or.inl h3
          · exact Or.inr (List.mem_cons_of_mem x h3)
    | k + 1 =>
      unfold g3aux at hc
      rcases List.mem_cons.mp hc with h | h
      · exact Or.inr (h ▸ List.mem_cons_self x t)
      · rcases ih k c h with h3 | h3
        · exact Or.inl h3
        · exact Or.inr (List.mem_cons_of_mem x h3)

lemma g3aux_filter {sep : Char} {l : Str} (hl : sep ∉ l) :
    ∀ k, (g3aux sep k l).filter (fun c => c ≠ sep) = l := by
  induction l with
  | nil => intro k; cases k <;> rfl
  | cons x t ih =>
    have hx : x ≠ sep := fun h => hl (h ▸ List.mem_cons_self x t)
    have ht : sep ∉ t := fun h => hl (List.mem_cons_of_mem x h)
    intro k
    match k with
    | 0 =>
      unfold g3aux
      rw [List.filter_cons, if_neg (by simp), List.filter_cons, if_pos (by simp [hx]), ih ht 2]
    | k + 1 =>
      unfold g3aux
      rw [List.filter_cons, if_pos (by simp [hx]), ih ht k]

lemma group3_mem {sep : Char} {ds : Str} : ∀ c ∈ group3 sep ds, c = sep ∨ c ∈ ds := by
  intro c hc
  unfold group3 at hc
  rw [List.mem_reverse] at hc
  rcases g3aux_mem 3 c hc with h | h
  · exact Or.inl h
  · exact Or.inr (List.mem_reverse.mp h)

lemma group3_filter {sep : Char} {ds : Str} (h : sep ∉ ds) :
    (group3 sep ds).filter (fun c => c ≠ sep) = ds := by
  unfold group3
  rw [List.filter_reverse, g3aux_filter (by simpa using h) 3, List.reverse_reverse]

lemma takeWhile_append_of_all {p : Char → Bool} {xs ys : Str} (h : ∀ c ∈ xs, p c = true) :
    (xs ++ ys).takeWhile p = xs ++ ys.takeWhile p := by
  induction xs with
  | nil => simp
  | cons c t ih =>
    rw [List.cons_append, List.takeWhile_cons, if_pos (h c (List.mem_cons_self c t)),
      ih (fun x hx => h x (List.mem_cons_of_mem c hx)), List.cons_append]

lemma dropWhile_append_of_all {p : Char → Bool} {xs ys : Str} (h : ∀ c ∈ xs, p c = true) :
    (xs ++ ys).dropWhile p = ys.dropWhile p := by
  induction xs with
  | nil => simp
  | cons c t ih =>
    rw [List.cons_append, List.dropWhile_cons, if_pos (h c (List.mem_cons_self c t))]
    exact ih (fun x hx => h x (List.mem_cons_of_mem c hx))

lemma takeWhile_eq_self_of_all {p : Char → Bool} {xs : Str} (h : ∀ c ∈ xs, p c = true) :
    xs.takeWhile p = xs := by
  have h2 := @takeWhile_append_of_all p xs [] h
  simpa using h2

lemma rfindAux_cons {c x : Char} {l : Str} {i : Nat} {best : Int} :
    rfindAux c (x :: l) i best = rfindAux c l (i + 1) (if x = c then (i : Int) else best) := rfl

lemma rfindAux_not_mem {c : Char} {l : Str} (h : c ∉ l) : ∀ i best, rfindAux c l i best = best := by
  induction l with
  | nil => intro i best; rfl
  | cons x t ih =>
    intro i best
    rw [rfindAux_cons, if_neg (fun hxc => h (by rw [← hxc]; exact List.mem_cons_self x t))]
    exact ih (fun hm => h (List.mem_cons_of_mem x hm)) (i + 1) best

lemma rfindAux_append {c : Char} (xs : Str) : ∀ (ys : Str) (i : Nat) (best : Int),
    rfindAux c (xs ++ ys) i best = rfindAux c ys (i + xs.length) (rfindAux c xs i best) := by
  induction xs with
  | nil => intro ys i best; simp [rfindAux]
  | cons x t ih =>
    intro ys i best
    rw [List.cons_append, rfindAux_cons, ih ys (i + 1), rfindAux_cons]
    have hlen : i + 1 + t.length = i + (x :: t).length := by
      simp only [List.length_cons]
      omega
    rw [hlen]

lemma rfindAux_lt {c : Char} (l : Str) : ∀ (i : Nat) (best : Int),
    best < (i : Int) + l.length → rfindAux c l i best < (i : Int) + l.length := by
  induction l with
  | nil => intro i best h; simpa using h
  | cons x t ih =>
    intro i best h
    rw [rfindAux_cons]
    have hb : (if x = c then (i : Int) else best) < ((i + 1 : Nat) : Int) + t.length := by
      split
      · push_cast; omega
      · push_cast at h ⊢
        simp only [List.length_cons] at h
        push_cast at h
        omega
    have := ih (i + 1) _ hb
    simp only [List.length_cons]
    push_cast at this ⊢
    omega

lemma rfindPy_append_unique {c : Char} {g p : Str} (hg : c ∉ g) (hp : c ∉ p) :
    rfindPy (g ++ c :: p) c = (g.length : Int) := by
  unfold rfindPy
  rw [rfindAux_append, rfindAux_not_mem hg, rfindAux_cons, if_pos rfl, rfindAux_not_mem hp]
  simp

lemma rfindPy_append_lt {c x : Char} {g p : Str} (hx : x ≠ c) (hp : c ∉ p) :
    rfindPy (g ++ x :: p) c < (g.length : Int) := by
  unfold rfindPy
  rw [rfindAux_append, rfindAux_cons, if_neg hx, rfindAux_not_mem hp]
  have h2 := @rfindAux_lt c g 0 (-1) (by push_cast; omega)
  push_cast at h2 ⊢
  omega

lemma natDigits_props {n : Nat} : ∀ c ∈ natDigits n,
    c.isDigit = true ∧ isPyWS c = false ∧ c ≠ '.' ∧ c ≠ ',' ∧ c ≠ ' ' := by
  intro c hc
  obtain ⟨d, hd, rfl⟩ := natDigits_mem c hc
  exact ⟨isDigit_digitChar48 hd, not_isPyWS_digitChar48 hd, (digitChar48_ne hd).1,
    (digitChar48_ne hd).2.1, (digitChar48_ne hd).2.2.2.2⟩

lemma pad2_props {b : Nat} (hb : b < 100) : ∀ c ∈ pad2 b,
    c.isDigit = true ∧ isPyWS c = false ∧ c ≠ '.' ∧ c ≠ ',' ∧ c ≠ ' ' := by
  intro c hc
  obtain ⟨d, hd, rfl⟩ := pad2_mem hb c hc
  exact ⟨isDigit_digitChar48 hd, not_isPyWS_digitChar48 hd, (digitChar48_ne hd).1,
    (digitChar48_ne hd).2.1, (digitChar48_ne hd).2.2.2.2⟩

lemma dot_not_mem_natDigits {n : Nat} : '.' ∉ natDigits n := by
  intro h
  obtain ⟨d, hd, he⟩ := natDigits_mem '.' h
  exact (digitChar48_ne hd).1 he.symm

lemma comma_not_mem_natDigits {n : Nat} : ',' ∉ natDigits n := by
  intro h
  obtain ⟨d, hd, he⟩ := natDigits_mem ',' h
  exact (digitChar48_ne hd).2.1 he.symm

lemma dot_not_mem_pad2 {b : Nat} (hb : b < 100) : '.' ∉ pad2 b := by
  intro h
  obtain ⟨d, hd, he⟩ := pad2_mem hb '.' h
  exact (digitChar48_ne hd).1 he.symm

lemma comma_not_mem_pad2 {b : Nat} (hb : b < 100) : ',' ∉ pad2 b := by
  intro h
  obtain ⟨d, hd, he⟩ := pad2_mem hb ',' h
  exact (digitChar48_ne hd).2.1 he.symm

lemma map_id_of_eq {f : Char → Char} {l : Str} (h : ∀ c ∈ l, f c = c) : l.map f = l := by
  induction l with
  | nil => rfl
  | cons c t ih =>
    rw [List.map_cons, h c (List.mem_cons_self c t), ih (fun x hx => h x (List.mem_cons_of_mem c hx))]

lemma sepNormalize_euroFormat (n b : Nat) (hb : b < 100) :
    sepNormalize (euroFormat n b) = natDigits n ++ '.' :: pad2 b := by
  have hgnc : ',' ∉ group3 '.' (natDigits n) := by
    intro h
    rcases group3_mem ',' h with h1 | h1
    · exact absurd h1 (by decide)
    · exact comma_not_mem_natDigits h1
  have hpnc : ',' ∉ pad2 b := comma_not_mem_pad2 hb
  have hpnd : '.' ∉ pad2 b := dot_not_mem_pad2 hb
  have hcomma : ',' ∈ euroFormat n b := List.mem_append_right _ (List.mem_cons_self _ _)
  have heuro : euroNorm (euroFormat n b) = natDigits n ++ '.' :: pad2 b := by
    unfold euroNorm euroFormat
    rw [List.filter_append, group3_filter dot_not_mem_natDigits, List.filter_cons,
      if_pos (by decide),
      List.filter_eq_self.mpr (fun a ha => by simp [(pad2_props hb a ha).2.2.1]),
      List.map_append, map_id_of_eq (fun a ha => if_neg ((natDigits_props a ha).2.2.2.1)),
      List.map_cons, map_id_of_eq (fun a ha => if_neg ((pad2_props hb a ha).2.2.2.1))]
    rfl
  have hrc : rfindPy (euroFormat n b) ',' = ((group3 '.' (natDigits n)).length : Int) := by
    unfold euroFormat
    exact rfindPy_append_unique hgnc hpnc
  have hrd : rfindPy (euroFormat n b) '.' < ((group3 '.' (natDigits n)).length : Int) := by
    unfold euroFormat
    exact rfindPy_append_lt (by decide) hpnd
  unfold sepNormalize
  by_cases hdot : '.' ∈ euroFormat n b
  · rw [if_pos (by simp [hcomma, hdot]), if_pos (by omega)]
    exact heuro
  · rw [if_neg (by simp [hdot]), if_pos (by simp [hcomma])]
    exact heuro

lemma sepNormalize_amerFormat (n b : Nat) (hb : b < 100) :
    sepNormalize (amerFormat n b) = natDigits n ++ '.' :: pad2 b := by
  have hgnd : '.' ∉ group3 ',' (natDigits n) := by
    intro h
    rcases group3_mem '.' h with h1 | h1
    · exact absurd h1 (by decide)
    · exact dot_not_mem_natDigits h1
  have hpnc : ',' ∉ pad2 b := comma_not_mem_pad2 hb
  have hpnd : '.' ∉ pad2 b := dot_not_mem_pad2 hb
  have hdot : '.' ∈ amerFormat n b := List.mem_append_right _ (List.mem_cons_self _ _)
  have hfilter : (amerFormat n b).filter (fun c => c ≠ ',') = natDigits n ++ '.' :: pad2 b := by
    unfold amerFormat
    rw [List.filter_append, group3_filter comma_not_mem_natDigits, List.filter_cons,
      if_pos (by decide),
      List.filter_eq_self.mpr (fun a ha => by simp [(pad2_props hb a ha).2.2.2.1])]
  unfold sepNormalize
  by_cases hcomma : ',' ∈ amerFormat n b
  · have hrd : rfindPy (amerFormat n b) '.' = ((group3 ',' (natDigits n)).length : Int) := by
      unfold amerFormat
      exact rfindPy_append_unique hgnd hpnd
    have hrc : rfindPy (amerFormat n b) ',' < ((group3 ',' (natDigits n)).length : Int) := by
      unfold amerFormat
      exact rfindPy_append_lt (by decide) hpnc
    rw [if_pos (by simp [hcomma, hdot]), if_neg (by omega)]
    exact hfilter
  · rw [if_neg (by simp [hcomma]), if_neg (by simp [hcomma])]
    have h1 : (group3 ',' (natDigits n)).filter (fun c => c ≠ ',') = group3 ',' (natDigits n) :=
      List.filter_eq_self.mpr (fun a ha => by
        have hane : a ≠ ',' := by
          intro hac
          subst hac
          exact hcomma (List.mem_append_left _ ha)
        simp [hane])
    have hg : group3 ',' (natDigits n) = natDigits n := by
      rw [← h1, group3_filter comma_not_mem_natDigits]
    unfold amerFormat
    rw [hg]

lemma pad2_length (b : Nat) : (pad2 b).length = 2 := rfl

lemma pyDecimalLit_formatted (n b : Nat) (hb : b < 100) :
    pyDecimalLit (natDigits n ++ '.' :: pad2 b) = some ⟨false, n, b, 2, 0⟩ := by
  have hddig : ∀ c ∈ natDigits n, Char.isDigit c = true := fun c hc => (natDigits_props c hc).1
  have hpdig : ∀ c ∈ pad2 b, Char.isDigit c = true := fun c hc => (pad2_props hb c hc).1
  have htake : (natDigits n ++ '.' :: pad2 b).takeWhile Char.isDigit = natDigits n := by
    rw [takeWhile_append_of_all hddig, List.takeWhile_cons, if_neg (by decide)]
    simp
  have hdrop : (natDigits n ++ '.' :: pad2 b).dropWhile Char.isDigit = '.' :: pad2 b := by
    rw [dropWhile_append_of_all hddig]
    exact dropWhile_eq_self_of_head (by decide)
  have htake2 : (pad2 b).takeWhile Char.isDigit = pad2 b := takeWhile_eq_self_of_all hpdig
  have hdrop2 : (pad2 b).dropWhile Char.isDigit = [] := dropWhile_eq_nil_of_all hpdig
  have hsplit : splitSign (natDigits n ++ '.' :: pad2 b) = (false, natDigits n ++ '.' :: pad2 b) := by
    obtain ⟨c0, t0, hds⟩ : ∃ c0 t0, natDigits n = c0 :: t0 := by
      cases h : natDigits n with
      | nil => exact absurd h (natDigits_ne_nil n)
      | cons a t => exact ⟨a, t, rfl⟩
    obtain ⟨d, hd, hcd⟩ := natDigits_mem c0 (by rw [hds]; exact List.mem_cons_self _ _)
    have hc1 : c0 ≠ '-' := by rw [hcd]; exact (digitChar48_ne hd).2.2.1
    have hc2 : c0 ≠ '+' := by rw [hcd]; exact (digitChar48_ne hd).2.2.2.1
    rw [hds, List.cons_append]
    show (if c0 = '-' then (true, t0 ++ '.' :: pad2 b)
      else if c0 = '+' then (false, t0 ++ '.' :: pad2 b)
      else (false, c0 :: (t0 ++ '.' :: pad2 b))) = (false, c0 :: (t0 ++ '.' :: pad2 b))
    rw [if_neg hc1, if_neg hc2]
  have hne : natDigits n ≠ [] := natDigits_ne_nil n
  unfold pyDecimalLit
  rw [hsplit]
  simp only [htake, hdrop, htake2, hdrop2]
  rw [if_neg (by simp [hne]), readNatDigits_natDigits, readNatDigits_pad2 hb, pad2_length]

lemma formatted_props {s1 s2 : Char} {n b : Nat} (hb : b < 100)
    (hs1 : isPyWS s1 = false ∧ s1 ≠ ' ') (hs2 : isPyWS s2 = false ∧ s2 ≠ ' ') :
    ∀ c ∈ group3 s1 (natDigits n) ++ s2 :: pad2 b, isPyWS c = false ∧ c ≠ ' ' := by
  intro c hc
  rcases List.mem_append.mp hc with h | h
  · rcases group3_mem c h with h1 | h1
    · subst h1; exact hs1
    · exact ⟨(natDigits_props c h1).2.1, (natDigits_props c h1).2.2.2.2⟩
  · rcases List.mem_cons.mp h with h1 | h1
    · subst h1; exact hs2
    · exact ⟨(pad2_props hb c h1).2.1, (pad2_props hb c h1).2.2.2.2⟩

lemma formatted_ne_nil {s1 s2 : Char} {n b : Nat} :
    group3 s1 (natDigits n) ++ s2 :: pad2 b ≠ [] := by
  simp

lemma formatted_ne_dash {s1 s2 : Char} {n b : Nat} :
    group3 s1 (natDigits n) ++ s2 :: pad2 b ≠ ['-'] := by
  intro h
  have h2 := congrArg List.length h
  simp [pad2] at h2

lemma toRat_two_dec (n b : Nat) : DecLit.toRat ⟨false, n, b, 2, 0⟩ = (n : ℚ) + (b : ℚ) / 100 := by
  unfold DecLit.toRat
  norm_num

lemma parse_amount_core_euroFormat (n b : Nat) (hb : b < 100) :
    parse_amount_core (some (euroFormat n b)) = some ⟨false, n, b, 2, 0⟩ := by
  have hprops : ∀ c ∈ euroFormat n b, isPyWS c = false ∧ c ≠ ' ' :=
    @formatted_props '.' ',' n b hb ⟨by decide, by decide⟩ ⟨by decide, by decide⟩
  have hne : euroFormat n b ≠ [] := formatted_ne_nil
  have hnd : euroFormat n b ≠ ['-'] := formatted_ne_dash
  have htrim : trim (euroFormat n b) = euroFormat n b :=
    trim_eq_self_of_all (fun c hc => (hprops c hc).1)
  have hfsp : (euroFormat n b).filter (fun c => c ≠ ' ') = euroFormat n b :=
    List.filter_eq_self.mpr (fun a ha => by simp [(hprops a ha).2])
  simp only [parse_amount_core]
  rw [if_neg hne, htrim, if_neg (by simp [hne, hnd]), hfsp,
    sepNormalize_euroFormat n b hb, pyDecimalLit_formatted n b hb]

lemma parse_amount_core_amerFormat (n b : Nat) (hb : b < 100) :
    parse_amount_core (some (amerFormat n b)) = some ⟨false, n, b, 2, 0⟩ := by
  have hprops : ∀ c ∈ amerFormat n b, isPyWS c = false ∧ c ≠ ' ' :=
    @formatted_props ',' '.' n b hb ⟨by decide, by decide⟩ ⟨by decide, by decide⟩
  have hne : amerFormat n b ≠ [] := formatted_ne_nil
  have hnd : amerFormat n b ≠ ['-'] := formatted_ne_dash
  have htrim : trim (amerFormat n b) = amerFormat n b :=
    trim_eq_self_of_all (fun c hc => (hprops c hc).1)
  have hfsp : (amerFormat n b).filter (fun c => c ≠ ' ') = amerFormat n b :=
    List.filter_eq_self.mpr (fun a ha => by simp [(hprops a ha).2])
  simp only [parse_amount_core]
  rw [if_neg hne, htrim, if_neg (by simp [hne, hnd]), hfsp,
    sepNormalize_amerFormat n b hb, pyDecimalLit_formatted n b hb]

/-- C6: Amount parser round-trip: for every non-negative decimal value with at
most two fractional digits, written `n + b/100` with `b < 100`, formatting it
in European style (dot thousands separators, comma decimal point, `1.234,56`)
and parsing with `_parse_amount` returns the value exactly; likewise for
American style (comma thousands separators, dot decimal point, `1,234.56`) —
so whenever both separators are present the separator whose rightmost
occurrence is later in the string is the one treated as the decimal point; and
the empty string, a lone dash, and `None` all parse to `0`. -/
theorem parse_amount_round_trip (n b : Nat) (hb : b < 100) :
    parse_amount (some (euroFormat n b)) = (n : ℚ) + (b : ℚ) / 100 ∧
    parse_amount (some (amerFormat n b)) = (n : ℚ) + (b : ℚ) / 100 ∧
    parse_amount (some []) = 0 ∧
    parse_amount (some ['-']) = 0 ∧
    parse_amount none = 0 := by
  refine ⟨?_, ?_, rfl, rfl, rfl⟩
  · unfold parse_amount
    rw [parse_amount_core_euroFormat n b hb]
    simp [toRat_two_dec]
  · unfold parse_amount
    rw [parse_amount_core_amerFormat n b hb]
    simp [toRat_two_dec]

/-- Witness for `parse_amount_round_trip` at `n = 1234`, `b = 56`
(the spec's own examples `1.234,56` and `1,234.56`). -/
theorem parse_amount_round_trip_witness :
    56 < 100 ∧
    (parse_amount (some (euroFormat 1234 56)) = (1234 : ℚ) + (56 : ℚ) / 100 ∧
     parse_amount (some (amerFormat 1234 56)) = (1234 : ℚ) + (56 : ℚ) / 100 ∧
     parse_amount (some []) = 0 ∧
     parse_amount (some ['-']) = 0 ∧
     parse_amount none = 0) :=
  ⟨by norm_num, parse_amount_round_trip 1234 56 (by norm_num)⟩
